import Mathlib

/-!
Verification of the PDF outline extractor (`Challenge_1a/extractor.py`).

The Python source is shallowly embedded:
* Python floats (font sizes, coordinates, ratios, scores-averages) are modelled
  by `Q`, an exact rational built on `Int` with a positive denominator, so that
  every comparison the code performs is computable by kernel reduction.
  Exact rational arithmetic is the idealisation of IEEE floats; all constants
  in the source are small decimals, represented exactly.
* Python strings are modelled as `List Char` (`Str`).  The regular expressions
  of the source are hand-compiled to recognisers over `Str`; character classes
  `\d`, `\s`, `\w` are modelled over their ASCII ranges (the documents the
  claims concern are covered by this range; non-ASCII letters compare as
  plain characters).
* Python dicts and `Counter`s keep insertion order; they are modelled as
  association lists whose update keeps the position of the first insertion.
* `list.sort` / `sorted` are stable; they are modelled by a stable insertion
  sort `stableSort` parameterised by the boolean `le` of the sort key
  (`reverse=True` flips the key comparison, which preserves stability exactly
  as CPython does).
* fallible steps (opening the document, the `try`/`except` around
  title/heading extraction) are modelled with `Except`.
-/

set_option maxRecDepth 10000

/-- Exact rational: numerator, positive denominator.  Models Python floats. -/
structure Q where
  num : Int
  den : Int
  dpos : 0 < den

/-- Build a `Q` from a numerator and a (checked) positive denominator. -/
def Q.mk2 (n d : Int) (h : 0 < d := by decide) : Q := ⟨n, d, h⟩

/-- Embed a natural number. -/
def Q.ofNat (n : Nat) : Q := ⟨(n : Int), 1, by decide⟩

/-- Value-level `≤` (cross multiplication with positive denominators). -/
def Q.leB (a b : Q) : Bool := decide (a.num * b.den ≤ b.num * a.den)

/-- Value-level `<`. -/
def Q.ltB (a b : Q) : Bool := decide (a.num * b.den < b.num * a.den)

/-- Value-level `==` (Python float equality is value equality). -/
def Q.eqB (a b : Q) : Bool := decide (a.num * b.den = b.num * a.den)

def Q.add (a b : Q) : Q :=
  ⟨a.num * b.den + b.num * a.den, a.den * b.den, mul_pos a.dpos b.dpos⟩

def Q.neg (a : Q) : Q := ⟨-a.num, a.den, a.dpos⟩

def Q.sub (a b : Q) : Q := a.add b.neg

def Q.mul (a b : Q) : Q := ⟨a.num * b.num, a.den * b.den, mul_pos a.dpos b.dpos⟩

/-- Inverse; `0⁻¹ = 0` (the pipeline never divides by zero on real inputs). -/
def Q.inv (a : Q) : Q :=
  if h : 0 < a.num then ⟨a.den, a.num, h⟩
  else if h2 : a.num < 0 then ⟨-a.den, -a.num, by omega⟩
  else ⟨0, 1, by decide⟩

def Q.div (a b : Q) : Q := a.mul b.inv

def Q.abs (a : Q) : Q := ⟨|a.num|, a.den, a.dpos⟩

/-- Python `round(x, 2)`: round `100·x` half-to-even, divide by 100. -/
def Q.round2 (a : Q) : Q :=
  let n100 := a.num * 100
  let n := n100.fdiv a.den
  let r := n100 - n * a.den
  let m :=
    if 2 * r > a.den then n + 1
    else if 2 * r < a.den then n
    else (if n % 2 = 0 then n else n + 1)
  ⟨m, 100, by decide⟩

/-- The rational value of a `Q`, used only to reason about the order. -/
def Q.toRat (a : Q) : ℚ := (a.num : ℚ) / (a.den : ℚ)

theorem Q.den_ne (a : Q) : (a.den : ℚ) ≠ 0 := by
  exact_mod_cast Int.ne_of_gt a.dpos

theorem Q.den_pos (a : Q) : (0 : ℚ) < (a.den : ℚ) := by exact_mod_cast a.dpos

theorem Q.leB_iff (a b : Q) : a.leB b = true ↔ a.toRat ≤ b.toRat := by
  unfold Q.leB Q.toRat
  rw [decide_eq_true_iff, div_le_div_iff₀ a.den_pos b.den_pos]
  constructor
  · intro h; exact_mod_cast h
  · intro h; exact_mod_cast h

theorem Q.ltB_iff (a b : Q) : a.ltB b = true ↔ a.toRat < b.toRat := by
  unfold Q.ltB Q.toRat
  rw [decide_eq_true_iff, div_lt_div_iff₀ a.den_pos b.den_pos]
  constructor
  · intro h; exact_mod_cast h
  · intro h; exact_mod_cast h

theorem Q.eqB_iff (a b : Q) : a.eqB b = true ↔ a.toRat = b.toRat := by
  unfold Q.eqB Q.toRat
  rw [decide_eq_true_iff, div_eq_div_iff a.den_ne b.den_ne]
  constructor
  · intro h; exact_mod_cast h
  · intro h; exact_mod_cast h

theorem Q.toRat_sub (a b : Q) : (a.sub b).toRat = a.toRat - b.toRat := by
  unfold Q.sub Q.add Q.neg Q.toRat
  push_cast
  rw [div_sub_div _ _ a.den_ne b.den_ne]
  congr 1
  ring

theorem Q.toRat_abs (a : Q) : a.abs.toRat = |a.toRat| := by
  unfold Q.abs Q.toRat
  rw [abs_div, abs_of_pos a.den_pos]
  push_cast
  rfl

theorem Q.toRat_ofNat (n : Nat) : (Q.ofNat n).toRat = (n : ℚ) := by
  unfold Q.ofNat Q.toRat
  push_cast
  ring

theorem Q.eqB_refl (a : Q) : a.eqB a = true := by
  rw [Q.eqB_iff]

/-- Model of `|a - a| < n` for positive `n`: used for the self-distance of a size key. -/
theorem Q.abs_sub_self_ltB (a : Q) (n : Nat) (hn : 0 < n) :
    ((a.sub a).abs).ltB (Q.ofNat n) = true := by
  rw [Q.ltB_iff, Q.toRat_abs, Q.toRat_sub, Q.toRat_ofNat, sub_self, abs_zero]
  exact_mod_cast hn

/-! ## Strings (`List Char`) -/

abbrev Str := List Char

/-- Python `\s` over its ASCII range. -/
def isSpaceChar (c : Char) : Bool :=
  c = ' ' || c = '\t' || c = '\n' || c = '\r' || c = '\x0b' || c = '\x0c'

def dropLeadingSpace : Str → Str
  | [] => []
  | c :: cs => if isSpaceChar c then dropLeadingSpace cs else c :: cs

/-- Python `str.strip()`. -/
def stripStr (s : Str) : Str :=
  ((dropLeadingSpace ((dropLeadingSpace s).reverse)).reverse)

/-- Python `str.rstrip()`. -/
def rstripStr (s : Str) : Str := (dropLeadingSpace s.reverse).reverse

def collapseWsAux : Str → Bool → Str
  | [], _ => []
  | c :: cs, prevSp =>
    if isSpaceChar c then (if prevSp then [] else [' ']) ++ collapseWsAux cs true
    else c :: collapseWsAux cs false

/-- Python `re.sub(r'\s+', ' ', s)`. -/
def collapseWs (s : Str) : Str := collapseWsAux s false

/-- The control-character class `[\x00-\x08\x0b\x0c\x0e-\x1f\x7f-\x84\x86-\x9f]`. -/
def isCtrlStrip (c : Char) : Bool :=
  let n := c.toNat
  (n ≤ 0x08) || n = 0x0b || n = 0x0c || (0x0e ≤ n && n ≤ 0x1f) ||
    (0x7f ≤ n && n ≤ 0x84) || (0x86 ≤ n && n ≤ 0x9f)

/-- Python `re.sub(r'[\x00-...]', '', s)`. -/
def removeCtrl (s : Str) : Str := s.filter (fun c => !(isCtrlStrip c))

/-- Python `str.lower()` (ASCII range). -/
def lowerStr (s : Str) : Str := s.map Char.toLower

def splitWordsAux : Str → Str → List Str
  | [], cur => if cur.isEmpty then [] else [cur.reverse]
  | c :: cs, cur =>
    if isSpaceChar c then
      (if cur.isEmpty then splitWordsAux cs [] else cur.reverse :: splitWordsAux cs [])
    else splitWordsAux cs (c :: cur)

/-- Python `str.split()` (split on whitespace runs, no empty pieces). -/
def splitWords (s : Str) : List Str := splitWordsAux s []

/-- Model of `s` starts with `pat`. -/
def strStarts : Str → Str → Bool
  | _, [] => true
  | [], _ :: _ => false
  | c :: cs, p :: ps => c = p && strStarts cs ps

/-- Python `pat in s` (substring containment). -/
def strHasSub : Str → Str → Bool
  | [], pat => strStarts [] pat
  | c :: cs, pat => strStarts (c :: cs) pat || strHasSub cs pat

/-- Python `\w` over its ASCII range. -/
def isWordChar (c : Char) : Bool := c.isAlphanum || c = '_'

/-- Count of characters matching `[^\w\s]`. -/
def punctCount (s : Str) : Nat :=
  (s.filter (fun c => !(isWordChar c) && !(isSpaceChar c))).length

/-- Python `str.isupper()`: some cased character, and no lowercase one. -/
def pyIsUpper (s : Str) : Bool :=
  let cased := s.filter (fun c => c.isAlpha)
  !cased.isEmpty && cased.all (fun c => c.isUpper)

def pyIsTitleAux : Str → Bool → Bool
  | [], _ => true
  | c :: cs, prevCased =>
    if c.isUpper then (if prevCased then false else pyIsTitleAux cs true)
    else if c.isLower then (if prevCased then pyIsTitleAux cs true else false)
    else pyIsTitleAux cs false

/-- Python `str.istitle()` (ASCII cased characters). -/
def pyIsTitle (s : Str) : Bool :=
  s.any (fun c => c.isAlpha) && pyIsTitleAux s false

/-- Python `re.search(r'[.,;:!?]\s*$', s)`. -/
def endsSentencePunct (s : Str) : Bool :=
  match dropLeadingSpace s.reverse with
  | [] => false
  | c :: _ => c = '.' || c = ',' || c = ';' || c = ':' || c = '!' || c = '?'

/-- Model of `' '.join parts`. -/
def joinSpace : List Str → Str
  | [] => []
  | [s] => s
  | s :: s2 :: rest => s ++ ' ' :: joinSpace (s2 :: rest)

/-! ## Compiled regular expressions of `extractor.py` -/

/-- Maximal run of `\d`, returning its length and the rest. -/
def takeDigits : Str → (Nat × Str)
  | [] => (0, [])
  | c :: cs =>
    if c.isDigit then
      let p := takeDigits cs
      (p.1 + 1, p.2)
    else (0, c :: cs)

/-- Maximal run of `\s`, returning its length and the rest. -/
def takeSpaces : Str → (Nat × Str)
  | [] => (0, [])
  | c :: cs =>
    if isSpaceChar c then
      let p := takeSpaces cs
      (p.1 + 1, p.2)
    else (0, c :: cs)

/-- Model of `\d+` (at least one digit), returning the rest on success. -/
def matchDigits (s : Str) : Option Str :=
  if (takeDigits s).1 = 0 then none else some (takeDigits s).2

/-- Model of `\d+\.`, returning the rest on success. -/
def matchDigitsDot (s : Str) : Option Str :=
  if (takeDigits s).1 = 0 then none
  else
    match (takeDigits s).2 with
    | '.' :: rest => some rest
    | _ => none

/-- Model of `\d+\.` -/
def matchAlt1 (s : Str) : Option Str := matchDigitsDot s

/-- Model of `\d+\.\d+` -/
def matchAlt2 (s : Str) : Option Str := (matchDigitsDot s).bind matchDigits

/-- Model of `\d+\.\d+\.\d+` -/
def matchAlt3 (s : Str) : Option Str :=
  ((matchDigitsDot s).bind matchDigitsDot).bind matchDigits

/-- Model of `\d+\.\d+\.\d+\.\d+` -/
def matchAlt4 (s : Str) : Option Str :=
  (((matchDigitsDot s).bind matchDigitsDot).bind matchDigitsDot).bind matchDigits

def isRomanChar (c : Char) : Bool :=
  c = 'I' || c = 'V' || c = 'X' || c = 'L' || c = 'C' || c = 'D' || c = 'M'

/-- Maximal run of `[IVXLCDM]`. -/
def takeRoman : Str → (Nat × Str)
  | [] => (0, [])
  | c :: cs =>
    if isRomanChar c then
      let p := takeRoman cs
      (p.1 + 1, p.2)
    else (0, c :: cs)

/-- Model of `[IVXLCDM]+\.` -/
def matchRomanDot (s : Str) : Option Str :=
  if (takeRoman s).1 = 0 then none
  else
    match (takeRoman s).2 with
    | '.' :: rest => some rest
    | _ => none

/-- Model of `[A-Za-z]\.` -/
def matchLetterDot : Str → Option Str
  | c :: c2 :: rest => if c.isAlpha && c2 = '.' then some rest else none
  | _ => none

/-- Whether the rest of a match starts with a `\s` character (for `...\s+`). -/
def hasWsNext : Option Str → Bool
  | some (c :: _) => isSpaceChar c
  | _ => false

/-- Model of `heading_patterns['numbered']`:
`^(?:\d+\.\d+\.\d+\.\d+|\d+\.\d+\.\d+|\d+\.\d+|\d+\.|[IVXLCDM]+\.|[A-Za-z]\.)\s+`,
with the alternatives tried in order exactly as the regex engine does. -/
def re_numbered (s : Str) : Bool :=
  hasWsNext (matchAlt4 s) || hasWsNext (matchAlt3 s) || hasWsNext (matchAlt2 s) ||
    hasWsNext (matchAlt1 s) || hasWsNext (matchRomanDot s) || hasWsNext (matchLetterDot s)

/-- Model of `re.match(r'^\d+\.\d+\.\d+\.\d+', text)` in the level mapping. -/
def re_seg4 (s : Str) : Bool := (matchAlt4 s).isSome

/-- Model of `re.match(r'^\d+\.\d+\.\d+', text)` in the level mapping. -/
def re_seg3 (s : Str) : Bool := (matchAlt3 s).isSome

/-- Model of `re.match(r'^\d+\.\d+', text)` in the level mapping. -/
def re_seg2 (s : Str) : Bool := (matchAlt2 s).isSome

/-- Model of `re.match(r'^\d+\.', text)` in the level mapping (also line 331). -/
def re_seg1 (s : Str) : Bool := (matchAlt1 s).isSome

/-- Model of `re.match(r'^[IVXLCDM]+\.', text)` in the level mapping. -/
def re_roman_dot (s : Str) : Bool := (matchRomanDot s).isSome

/-- Model of `re.match(r'^[A-Za-z]\.', text)` in the level mapping. -/
def re_letter_dot (s : Str) : Bool := (matchLetterDot s).isSome

/-- After a keyword, `\b`: end of string or a non-`\w` character. -/
def boundaryAfter (s k : Str) : Bool :=
  match s.drop k.length with
  | [] => true
  | c :: _ => !(isWordChar c)

/-- After a keyword, `\s+`: at least one whitespace character. -/
def spaceAfter (s k : Str) : Bool :=
  match s.drop k.length with
  | [] => false
  | c :: _ => isSpaceChar c

def kw_appendix : List Str :=
  ["appendix".data, "annex".data, "anhang".data, "appendice".data,
   "附录".data, "부록".data, "приложение".data, "ملحق".data]

/-- Model of `heading_patterns['appendix']`: `^(appendix|annex|...)\b` on the lowered text. -/
def re_appendix (low : Str) : Bool :=
  kw_appendix.any (fun k => strStarts low k && boundaryAfter low k)

def kw_chapter : List Str :=
  ["chapter".data, "chapitre".data, "kapitel".data, "capitolo".data,
   "capítulo".data, "章".data, "장".data, "глава".data, "فصل".data]

/-- Model of `heading_patterns['chapter']`: `^(chapter|chapitre|...)\s+` on the lowered text. -/
def re_chapter (low : Str) : Bool :=
  kw_chapter.any (fun k => strStarts low k && spaceAfter low k)

/-- The source lists `section` twice; kept verbatim (harmless duplicate). -/
def kw_sect : List Str :=
  ["section".data, "section".data, "abschnitt".data, "sezione".data,
   "sección".data, "节".data, "섹션".data, "раздел".data, "قسم".data]

/-- Model of `heading_patterns['section']`: `^(section|...)\s+` on the lowered text. -/
def re_sect (low : Str) : Bool :=
  kw_sect.any (fun k => strStarts low k && spaceAfter low k)

def month_abbrev : List Str :=
  ["jan".data, "feb".data, "mar".data, "apr".data, "may".data, "jun".data,
   "jul".data, "aug".data, "sep".data, "oct".data, "nov".data, "dec".data]

/-- Model of `^\d{1,2}\s+(jan|feb|...)\s+\d{4}$` on the lowered text. -/
def re_date1 (low : Str) : Bool :=
  let p1 := takeDigits low
  if p1.1 = 0 || 2 < p1.1 then false
  else
    let p2 := takeSpaces p1.2
    if p2.1 = 0 then false
    else
      match month_abbrev.find? (fun m => strStarts p2.2 m) with
      | none => false
      | some m =>
        let r := p2.2.drop m.length
        let p3 := takeSpaces r
        if p3.1 = 0 then false
        else
          let p4 := takeDigits p3.2
          p4.1 = 4 && p4.2.isEmpty

def isSlashDash (c : Char) : Bool := c = '/' || c = '-'

/-- Model of `^\d{1,2}D\d{1,2}D\d{2,4}$` on the raw text, where `D` stands for the
character class holding a slash or a dash. -/
def re_date2 (s : Str) : Bool :=
  let p1 := takeDigits s
  if p1.1 = 0 || 2 < p1.1 then false
  else
    match p1.2 with
    | c1 :: r1 =>
      if !(isSlashDash c1) then false
      else
        let p2 := takeDigits r1
        if p2.1 = 0 || 2 < p2.1 then false
        else
          match p2.2 with
          | c2 :: r2 =>
            if !(isSlashDash c2) then false
            else
              let p3 := takeDigits r2
              2 ≤ p3.1 && p3.1 ≤ 4 && p3.2.isEmpty
          | [] => false
    | [] => false

def month_full : List Str :=
  ["january".data, "february".data, "march".data, "april".data, "may".data,
   "june".data, "july".data, "august".data, "september".data, "october".data,
   "november".data, "december".data]

/-- Model of `^(january|...|december)\s+\d{1,2},?\s+\d{4}$` on the lowered text. -/
def re_date3 (low : Str) : Bool :=
  match month_full.find? (fun m => strStarts low m) with
  | none => false
  | some m =>
    let r := low.drop m.length
    let p1 := takeSpaces r
    if p1.1 = 0 then false
    else
      let p2 := takeDigits p1.2
      if p2.1 = 0 || 2 < p2.1 then false
      else
        let r2 := match p2.2 with
          | ',' :: rest => rest
          | other => other
        let p3 := takeSpaces r2
        if p3.1 = 0 then false
        else
          let p4 := takeDigits p3.2
          p4.1 = 4 && p4.2.isEmpty

/-- Maximal run of `[A-Z]`. -/
def takeUpper : Str → (Nat × Str)
  | [] => (0, [])
  | c :: cs =>
    if c.isUpper then
      let p := takeUpper cs
      (p.1 + 1, p.2)
    else (0, c :: cs)

/-- Model of `re.match(r'^[A-Z]{2,}\s*$', text)` (all-caps single token, line 336). -/
def re_allcaps_token (s : Str) : Bool :=
  let p := takeUpper s
  2 ≤ p.1 && p.2.all isSpaceChar

def isDotUnderscore (c : Char) : Bool := c = '.' || c = '_'

def isIvx (c : Char) : Bool := c = 'i' || c = 'v' || c = 'x'

/-- Maximal run of `[\._]`. -/
def takeDotUnderscore : Str → (Nat × Str)
  | [] => (0, [])
  | c :: cs =>
    if isDotUnderscore c then
      let p := takeDotUnderscore cs
      (p.1 + 1, p.2)
    else (0, c :: cs)

/-- Maximal run of `[ivx]`. -/
def takeIvx : Str → (Nat × Str)
  | [] => (0, [])
  | c :: cs =>
    if isIvx c then
      let p := takeIvx cs
      (p.1 + 1, p.2)
    else (0, c :: cs)

/-- Whether `s` fully matches `\s*[\._]{2,}\s*(\d+|[ivx]+)\s*$`. -/
def tocSuffixMatch (s : Str) : Bool :=
  let p1 := takeSpaces s
  let p2 := takeDotUnderscore p1.2
  if p2.1 < 2 then false
  else
    let p3 := takeSpaces p2.2
    let pd := takeDigits p3.2
    if 0 < pd.1 then pd.2.all isSpaceChar
    else
      let pi := takeIvx p3.2
      if pi.1 = 0 then false else pi.2.all isSpaceChar

/-- Model of `re.sub(r'\s*[\._]{2,}\s*(\d+|[ivx]+)\s*$', '', s)`: delete the suffix
starting at the leftmost position from which the pattern matches to the end. -/
def stripTocSuffix : Str → Str
  | [] => []
  | c :: cs => if tocSuffixMatch (c :: cs) then [] else c :: stripTocSuffix cs

def isSpaceDotUnd (c : Char) : Bool := isSpaceChar c || c = '.' || c = '_'

/-- Model of `re.sub(r'^[\s\._]+|[\s\._]+$', '', s)`. -/
def stripDotsEnds (s : Str) : Str :=
  ((s.dropWhile isSpaceDotUnd).reverse.dropWhile isSpaceDotUnd).reverse

/-! ## Generic helpers: stable sort, Python `max`/`min`, insertion-ordered dicts -/

/-- Insert `a` before the first element `b` with `le a b`; placing equals after
existing ones is what makes the sort stable, like CPython's sort. -/
def insSorted (le : α → α → Bool) (a : α) : List α → List α
  | [] => [a]
  | b :: bs => if le a b then a :: b :: bs else b :: insSorted le a bs

/-- Stable sort by a boolean `le`; models Python `sorted` / `list.sort`. -/
def stableSort (le : α → α → Bool) : List α → List α
  | [] => []
  | a :: as => insSorted le a (stableSort le as)

/-- Python `max(l, key=...)`: first maximal element; `better x acc` holds when
`x` is strictly better than the accumulator. -/
def pickBest (better : α → α → Bool) : List α → Option α
  | [] => none
  | a :: as => some (as.foldl (fun acc x => if better x acc then x else acc) a)

/-! ## Data model: spans, lines, blocks, pages, documents -/

/-- A text span produced by the layout extractor (text, font name, size). -/
structure Span where
  text : Str
  font : Str
  size : Q

/-- A line: its spans and bounding box `(x0, y0, x1, y1)`. -/
structure Line where
  spans : List Span
  x0 : Q
  y0 : Q
  x1 : Q
  y1 : Q

/-- A block: bounding box and lines. -/
structure Block where
  x0 : Q
  y0 : Q
  x1 : Q
  y1 : Q
  lines : List Line

/-- A page: dimensions and blocks. -/
structure Page where
  width : Q
  height : Q
  blocks : List Block

/-- A document: its pages and the metadata title (`doc.metadata.get('title')`). -/
structure Doc where
  pages : List Page
  metaTitle : Option Str

/-- Model of `doc.metadata.get('title', 'Untitled')`. -/
def metaTitleOf (doc : Doc) : Str :=
  match doc.metaTitle with
  | some t => t
  | none => "Untitled".data

/-- All spans of the document in page/block/line order (the profiling pass). -/
def allSpans (doc : Doc) : List Span :=
  doc.pages.flatMap (fun p => p.blocks.flatMap (fun b => b.lines.flatMap (fun l => l.spans)))

/-! ## `_profile_document_styles` -/

/-- The font detected as bold: `any(k in font.lower() for k in ['bold','heavy','black','demi'])`. -/
def font_is_bold (font : Str) : Bool :=
  let fl := lowerStr font
  strHasSub fl "bold".data || strHasSub fl "heavy".data ||
    strHasSub fl "black".data || strHasSub fl "demi".data

/-- Per-size statistics accumulated by the profiler. -/
structure SizeStats where
  count : Nat
  bold_count : Nat
  fonts : List (Str × Nat)
  total_chars : Nat

/-- Model of `Counter[k] += n`, keeping the position of the first insertion. -/
def counterIncr (k : Str) (n : Nat) : List (Str × Nat) → List (Str × Nat)
  | [] => [(k, n)]
  | (k2, v) :: rest =>
    if k2 == k then (k2, v + n) :: rest else (k2, v) :: counterIncr k n rest

/-- Update the entry of key `k` (inserting `f init` when absent), keeping
dict insertion order. -/
def updAssoc (k : Q) (f : SizeStats → SizeStats) (init : SizeStats) :
    List (Q × SizeStats) → List (Q × SizeStats)
  | [] => [(k, f init)]
  | (k2, v) :: rest =>
    if k2.eqB k then (k2, f v) :: rest else (k2, v) :: updAssoc k f init rest

/-- The `font_size_stats` dict built from all spans (lines 22-41). -/
def profileStats (spans : List Span) : List (Q × SizeStats) :=
  spans.foldl
    (fun stats span =>
      let size := span.size.round2
      let text := stripStr span.text
      updAssoc size
        (fun st =>
          { count := st.count + 1
            fonts := counterIncr span.font 1 st.fonts
            total_chars := st.total_chars + text.length
            bold_count := st.bold_count + (if font_is_bold span.font then 1 else 0) })
        ⟨0, 0, [], 0⟩ stats)
    []

/-- Model of `body_size` (lines 43-51): most frequent size among sizes backing more than
100 characters; otherwise the globally most frequent size; otherwise `10.0`. -/
def bodySizeOf (stats : List (Q × SizeStats)) : Q :=
  let body_candidates := stats.filter (fun p => 100 < p.2.total_chars)
  match pickBest (fun a b => b.2.count < a.2.count) body_candidates with
  | some p => p.1
  | none =>
    match pickBest (fun a b => b.2.count < a.2.count) stats with
    | some p => p.1
    | none => Q.mk2 10 1

/-- Model of `body_font` (lines 53-57): most common font across all sizes. -/
def bodyFontOf (stats : List (Q × SizeStats)) : Str :=
  let all_fonts :=
    stats.foldl (fun acc p => p.2.fonts.foldl (fun a kv => counterIncr kv.1 kv.2 a) acc) []
  match pickBest (fun a b => b.2 < a.2) all_fonts with
  | some p => p.1
  | none => "Unknown".data

/-- The three heading-size tiers. -/
structure HeadingSizes where
  largest : Q
  second_largest : Q
  third_largest : Q

/-- The style profile returned by `_profile_document_styles`. -/
structure StyleProfile where
  body_size : Q
  body_font : Str
  font_size_stats : List (Q × SizeStats)
  heading_sizes : HeadingSizes
  sorted_sizes : List Q

/-- Model of `heading_sizes` (lines 59-67): 1st/2nd/3rd largest distinct sizes with
`body_size` as the fallback. -/
def headingSizesOf (sorted_sizes : List Q) (body_size : Q) : HeadingSizes :=
  match sorted_sizes with
  | [] => ⟨body_size, body_size, body_size⟩
  | [a] => ⟨a, body_size, body_size⟩
  | [a, b] => ⟨a, b, body_size⟩
  | a :: b :: c :: _ => ⟨a, b, c⟩

/-- Model of `_profile_document_styles` (lines 6-75): `none` iff the document has no
spans, otherwise the style profile. -/
def _profile_document_styles (doc : Doc) : Option StyleProfile :=
  let spans := allSpans doc
  if spans.isEmpty then none
  else
    let stats := profileStats spans
    let body_size := bodySizeOf stats
    let sizes := stableSort (fun a b => b.leB a) (stats.map (fun p => p.1))
    some
      { body_size := body_size
        body_font := bodyFontOf stats
        font_size_stats := stats
        heading_sizes := headingSizesOf sizes body_size
        sorted_sizes := sizes }

/-! ## `_extract_title` -/

/-- Model of `_is_repetitive_text` (lines 224-236): some word longer than 2 characters
occurs more than 3 times. -/
def _is_repetitive_text (text : Str) : Bool :=
  let words := splitWords (lowerStr text)
  if words.length < 3 then false
  else
    let long := words.filter (fun w => 2 < w.length)
    long.any (fun w => 3 < (long.filter (fun v => v == w)).length)

def cleanRepAux : List Str → Option Str → Option Str → List Str → List Str
  | [], _, _, acc => acc
  | w :: rest, prev, prevprev, acc =>
    let wl := lowerStr w
    let skip1 :=
      match prev with
      | some p => wl == lowerStr p
      | none => false
    let skip2 :=
      match prevprev, prev, acc.getLast? with
      | some pp, some p, some lastc =>
        wl == lowerStr pp && 1 < acc.length && lowerStr lastc == lowerStr p
      | _, _, _ => false
    if skip1 || skip2 then cleanRepAux rest (some w) prev acc
    else cleanRepAux rest (some w) prev (acc ++ [w])

/-- Model of `_clean_repetitive_title` (lines 238-252): drop immediately repeated words
and simple two-word repeat patterns. -/
def _clean_repetitive_title (title : Str) : Str :=
  joinSpace (cleanRepAux (splitWords title) none none [])

/-- A line collected from the top half of the first page. -/
structure TitleLine where
  text : Str
  y : Q
  size : Q
  font : Str
  bx0 : Q
  by0 : Q
  bx1 : Q
  by1 : Q

/-- A scored title candidate. -/
structure TitleCand where
  text : Str
  score : Nat
  y : Q
  size : Q

/-- Lines of the first page whose block starts in the top half
(lines 85-114). -/
def titleLinesOf (page : Page) : List TitleLine :=
  let top_section := page.height.mul (Q.mk2 1 2)
  page.blocks.flatMap (fun block =>
    if top_section.ltB block.y0 then []
    else
      block.lines.filterMap (fun line =>
        match line.spans with
        | [] => none
        | span :: _ =>
          let t0 := stripStr (line.spans.flatMap (fun s => s.text))
          if t0.isEmpty || t0.length < 3 then none
          else
            let t1 := removeCtrl (collapseWs t0)
            some ⟨t1, line.y0, span.size, span.font, line.x0, line.y0, line.x1, line.y1⟩))

/-- Scoring of one title line (lines 126-182); `none` when the line is
filtered out. -/
def titleCandOf (body_size : Q) (page : Page) (line : TitleLine) : Option TitleCand :=
  if line.size.ltB (body_size.mul (Q.mk2 13 10)) then none
  else
    let text_lower := lowerStr line.text
    if strHasSub text_lower "page".data || strHasSub text_lower "copyright".data ||
        strHasSub text_lower "confidential".data || strHasSub text_lower "draft".data then none
    else
      let word_count := (splitWords line.text).length
      if 20 < word_count then none
      else if (match (rstripStr line.text).reverse with
               | c :: _ => c == '.'
               | [] => false) then none
      else
        let size_ratio := line.size.div body_size
        let s1 :=
          if (Q.mk2 2 1).leB size_ratio then 10
          else if (Q.mk2 3 2).leB size_ratio then 7
          else if (Q.mk2 13 10).leB size_ratio then 5
          else 0
        let relative_y := line.y.div page.height
        let s2 :=
          if relative_y.ltB (Q.mk2 1 10) then 5
          else if relative_y.ltB (Q.mk2 2 10) then 3
          else if relative_y.ltB (Q.mk2 3 10) then 1
          else 0
        let font_lower := lowerStr line.font
        let s3 :=
          if strHasSub font_lower "bold".data || strHasSub font_lower "heavy".data ||
              strHasSub font_lower "black".data then 3
          else 0
        let s4 := if 3 ≤ word_count && word_count ≤ 15 then 2 else 0
        some ⟨line.text, s1 + s2 + s3 + s4, line.y, line.size⟩

/-- The multi-line title merge loop (lines 199-213). -/
def titleMerge (best_size : Q) : List TitleCand → List Str → Q → List Str
  | [], parts, _ => parts
  | c :: rest, parts, best_y =>
    if ((c.y.sub best_y).abs).ltB (best_size.mul (Q.mk2 3 1)) &&
        ((c.size.sub best_size).abs).ltB (Q.mk2 4 1) && 3 ≤ c.score then
      if !(_is_repetitive_text (joinSpace (parts ++ [c.text]))) then
        titleMerge best_size rest (parts ++ [c.text]) c.y
      else parts
    else parts

/-- Model of `_extract_title` (lines 77-222).  The surrounding `try`/`except` falls back
to the metadata title on an exception; the embedded pipeline is total, so that
branch is unreachable here. -/
def _extract_title (doc : Doc) (style_profile : StyleProfile) : Str :=
  match doc.pages with
  | [] => metaTitleOf doc
  | page :: _ =>
    let text_lines := stableSort (fun a b => a.y.leB b.y) (titleLinesOf page)
    match text_lines with
    | [] => metaTitleOf doc
    | _ :: _ =>
      let max_size :=
        match pickBest (fun x acc => acc.ltB x) (text_lines.map (fun l => l.size)) with
        | some m => m
        | none => Q.mk2 0 1
      let title_candidates := text_lines.filterMap (titleCandOf style_profile.body_size page)
      match title_candidates with
      | [] =>
        let largest_lines := text_lines.filter (fun l => l.size.eqB max_size)
        (match pickBest (fun x acc => x.y.ltB acc.y) largest_lines with
         | some best => best.text
         | none => metaTitleOf doc)
      | _ :: _ =>
        let sorted := stableSort
          (fun a b => b.score < a.score || (a.score == b.score && a.y.leB b.y))
          title_candidates
        match sorted with
        | [] => metaTitleOf doc
        | best :: remaining =>
          let parts := titleMerge best.size remaining [best.text] best.y
          let final_title := collapseWs (_clean_repetitive_title (stripStr (joinSpace parts)))
          if final_title.isEmpty then metaTitleOf doc else final_title

/-! ## `_extract_headings`: per-line filtering, signals, scoring, threshold -/

/-- The exact-match boilerplate set (lines 314-319). -/
def skip_patterns : List Str :=
  ["page".data, "seite".data, "página".data, "pagina".data, "страница".data,
   "页".data, "페이지".data,
   "copyright".data, "confidential".data, "draft".data, "preliminary".data,
   "table of contents".data, "inhaltsverzeichnis".data, "índice".data, "sommaire".data,
   "date".data, "remarks".data, "version".data, "revision".data, "author".data,
   "title".data]

/-- The structural keywords exempting single-word labels (line 332). -/
def structural_keywords : List Str :=
  ["summary".data, "background".data, "introduction".data, "conclusion".data,
   "appendix".data]

/-- The chain of non-heading filters (lines 294-341): `true` iff the line text
survives every `continue`. -/
def line_passes_filters (text : Str) : Bool :=
  if text.isEmpty || text.length < 2 then false
  else
    let word_count := (splitWords text).length
    if 15 < word_count then false
    else if endsSentencePunct text then false
    else if word_count < 2 then false
    else
      let text_lower := stripStr (lowerStr text)
      if skip_patterns.any (fun p => p == text_lower) then false
      else if re_date1 text_lower || re_date2 text || re_date3 text_lower then false
      else if word_count == 1 && text.length < 12 && !(re_seg1 text) &&
          !(structural_keywords.any (fun k => strHasSub text_lower k)) then false
      else if re_allcaps_token text then false
      else if (Q.ofNat (text.length)).mul (Q.mk2 3 10) |>.ltB (Q.ofNat (punctCount text)) then
        false
      else true

/-- The boolean/numeric signals derived for a surviving line (lines 343-381). -/
structure LineSignals where
  word_count : Nat
  is_bold : Bool
  is_medium : Bool
  size_ratio : Q
  is_larger : Bool
  is_much_larger : Bool
  is_numbered : Bool
  is_appendix : Bool
  is_chapter : Bool
  is_sect : Bool
  is_all_caps : Bool
  is_title_case : Bool
  is_short : Bool
  is_centered : Bool
  is_left_aligned : Bool
  has_space_before : Bool
  is_top_size : Bool
  is_second_size : Bool
  is_third_size : Bool

/-- Compute the signals of a line (lines 343-381). -/
def signals_of (body_size : Q) (hs : HeadingSizes) (page : Page)
    (prev : Option Block) (block : Block) (line : Line) (span : Span)
    (text : Str) : LineSignals :=
  let word_count := (splitWords text).length
  let font_lower := lowerStr span.font
  let size_ratio := span.size.div body_size
  let line_center := (line.x0.add line.x1).div (Q.mk2 2 1)
  let page_center := page.width.div (Q.mk2 2 1)
  { word_count := word_count
    is_bold := font_is_bold span.font
    is_medium := strHasSub font_lower "medium".data || strHasSub font_lower "semi".data
    size_ratio := size_ratio
    is_larger := (Q.mk2 11 10).ltB size_ratio
    is_much_larger := (Q.mk2 3 2).ltB size_ratio
    is_numbered := re_numbered text
    is_appendix := re_appendix (lowerStr text)
    is_chapter := re_chapter (lowerStr text)
    is_sect := re_sect (lowerStr text)
    is_all_caps := pyIsUpper text && word_count ≤ 10
    is_title_case := pyIsTitle text
    is_short := word_count ≤ 15
    is_centered := ((line_center.sub page_center).abs).ltB (Q.mk2 50 1)
    is_left_aligned := line.x0.ltB (page.width.mul (Q.mk2 2 10))
    has_space_before :=
      match prev with
      | some pb => (body_size.mul (Q.mk2 12 10)).ltB (block.y0.sub pb.y1)
      | none => false
    is_top_size := ((span.size.sub hs.largest).abs).ltB (Q.mk2 1 1)
    is_second_size := ((span.size.sub hs.second_largest).abs).ltB (Q.mk2 1 1)
    is_third_size := ((span.size.sub hs.third_largest).abs).ltB (Q.mk2 1 1) }

/-- The composite score (lines 383-416). -/
def line_score (s : LineSignals) (size_ratio : Q) : Nat :=
  (if s.is_much_larger then 6
   else if s.is_larger then 4
   else if (Q.mk2 105 100).ltB size_ratio then 2
   else 0) +
  (if s.is_bold then 4 else if s.is_medium then 2 else 0) +
  (if s.is_numbered then 6 else 0) +
  (if s.is_chapter then 5 else 0) +
  (if s.is_sect then 4 else 0) +
  (if s.is_appendix then 5 else 0) +
  (if s.is_all_caps && s.word_count ≤ 5 then 3 else if s.is_title_case then 2 else 0) +
  (if s.is_centered then 1 else if s.is_left_aligned then 1 else 0) +
  (if s.has_space_before then 3 else 0) +
  (if s.is_short && 2 ≤ s.word_count then 2 else 0) +
  (if s.is_top_size then 4 else if s.is_second_size then 3 else if s.is_third_size then 2 else 0)

/-- The context-adaptive acceptance threshold (lines 418-431).  Note that the
final `if` is not an `elif`: `word_count > 10` or `not is_larger` overrides
every lowered threshold, including the numbered/chapter/appendix one. -/
def min_threshold (s : LineSignals) : Nat :=
  let lowered :=
    if s.is_numbered || s.is_chapter || s.is_appendix then 6
    else if s.is_much_larger && s.is_bold then 7
    else if s.word_count ≤ 5 && s.is_larger then 7
    else 8
  if 10 < s.word_count || !s.is_larger then 10 else lowered

/-- An accepted heading candidate (lines 434-448). -/
structure HeadingCandidate where
  text : Str
  size : Q
  font : Str
  page : Nat
  y : Q
  score : Nat
  is_numbered : Bool
  is_appendix : Bool
  is_chapter : Bool
  is_sect : Bool
  is_bold : Bool
  is_all_caps : Bool
  size_ratio : Q

/-- Text of a line: `"".join(s['text'] for s in spans).strip()`. -/
def lineText (line : Line) : Str := stripStr (line.spans.flatMap (fun s => s.text))

/-- Classify one line (lines 287-448): `some` candidate iff the line survives
the filters and its score reaches the threshold. -/
def classify_line (body_size : Q) (hs : HeadingSizes) (page : Page) (page_num : Nat)
    (prev : Option Block) (block : Block) (line : Line) : Option HeadingCandidate :=
  match line.spans with
  | [] => none
  | span :: _ =>
    let text := lineText line
    if !(line_passes_filters text) then none
    else
      let s := signals_of body_size hs page prev block line span text
      let score := line_score s s.size_ratio
      if min_threshold s ≤ score then
        some
          { text := text
            size := span.size
            font := span.font
            page := page_num
            y := line.y0
            score := score
            is_numbered := s.is_numbered
            is_appendix := s.is_appendix
            is_chapter := s.is_chapter
            is_sect := s.is_sect
            is_bold := s.is_bold
            is_all_caps := s.is_all_caps
            size_ratio := s.size_ratio }
      else none

/-- Scan the blocks of one page (lines 280-472); blocks in the top or bottom
8% of the page are skipped and do not update `previous_block`. -/
def scanBlocks (body_size : Q) (hs : HeadingSizes) (page : Page) (page_num : Nat) :
    List Block → Option Block → List HeadingCandidate
  | [], _ => []
  | block :: rest, prev =>
    if block.y0.ltB (page.height.mul (Q.mk2 8 100)) ||
        (page.height.mul (Q.mk2 92 100)).ltB block.y1 then
      scanBlocks body_size hs page page_num rest prev
    else
      (block.lines.filterMap (classify_line body_size hs page page_num prev block)) ++
        scanBlocks body_size hs page page_num rest (some block)

/-- Scan pages, numbering them from `n`. -/
def scanPagesFrom (body_size : Q) (hs : HeadingSizes) :
    List Page → Nat → List HeadingCandidate
  | [], _ => []
  | p :: rest, n =>
    scanBlocks body_size hs p n p.blocks none ++ scanPagesFrom body_size hs rest (n + 1)

/-- Model of `heading_candidates` (lines 274-472): pages are scanned from index 1;
page 0 is reserved for the title. -/
def heading_candidates_of (doc : Doc) (sp : StyleProfile) : List HeadingCandidate :=
  match doc.pages with
  | [] => []
  | _ :: rest => scanPagesFrom sp.body_size sp.heading_sizes rest 1

/-! ## `_extract_headings`: outline assembly -/

/-- An outline entry (level, text, page). -/
structure OutlineEntry where
  level : Str
  text : Str
  page : Nat
deriving DecidableEq

/-- Order by `(page, y)` used for the three candidate streams. -/
def pageYLe (a b : HeadingCandidate) : Bool :=
  a.page < b.page || (a.page == b.page && a.y.leB b.y)

/-- The numbering-shape → level mapping (lines 494-509): a pure function of
the text, checked in the order of the source's `if`/`elif` chain, with the
default level `H1`. -/
def numbered_level (text : Str) : Str :=
  if re_seg4 text then "H4".data
  else if re_seg3 text then "H3".data
  else if re_seg2 text then "H2".data
  else if re_seg1 text then "H1".data
  else if re_roman_dot text then "H1".data
  else if re_letter_dot text then "H2".data
  else "H1".data

/-- Chapters and appendices (lines 479-488): always `H1`. -/
def special_entries (cands : List HeadingCandidate) : List OutlineEntry :=
  (stableSort pageYLe (cands.filter (fun h => h.is_chapter || h.is_appendix))).map
    (fun h => ⟨"H1".data, h.text, h.page⟩)

/-- Numbered headings (lines 490-515). -/
def numbered_entries (cands : List HeadingCandidate) : List OutlineEntry :=
  (stableSort pageYLe
      (cands.filter (fun h => h.is_numbered && !h.is_chapter && !h.is_appendix))).map
    (fun h => ⟨numbered_level h.text, h.text, h.page⟩)

/-- The unnumbered stream (line 516). -/
def unnumbered_of (cands : List HeadingCandidate) : List HeadingCandidate :=
  cands.filter (fun h => !h.is_numbered && !h.is_appendix && !h.is_chapter)

def dedupQAux : List Q → List Q → List Q
  | [], _ => []
  | q :: rest, seen =>
    if seen.any (fun s => s.eqB q) then dedupQAux rest seen
    else q :: dedupQAux rest (q :: seen)

/-- Value-level deduplication (the `set(...)` of line 528). -/
def dedupQ (l : List Q) : List Q := dedupQAux l []

/-- Model of `unique_sizes` (lines 527-529): distinct rounded sizes, sorted descending. -/
def uniqueSizesOf (cands : List HeadingCandidate) : List Q :=
  stableSort (fun a b => b.leB a) (dedupQ (cands.map (fun h => h.size.round2)))

/-- Per-cluster statistics (lines 532-543). -/
structure SizeAnalysis where
  count : Nat
  avg_score : Q
  bold_ratio : Q
  caps_ratio : Q
  size_ratio : Q
  headings : List HeadingCandidate

/-- Model of `size_analysis[size]` (lines 533-543). -/
def size_analysis_of (body_size : Q) (unnumbered : List HeadingCandidate) (size : Q) :
    SizeAnalysis :=
  let hws := unnumbered.filter (fun h => ((h.size.sub size).abs).ltB (Q.mk2 1 2))
  { count := hws.length
    avg_score := (Q.ofNat (hws.foldl (fun a h => a + h.score) 0)).div (Q.ofNat hws.length)
    bold_ratio := (Q.ofNat (hws.filter (fun h => h.is_bold)).length).div (Q.ofNat hws.length)
    caps_ratio := (Q.ofNat (hws.filter (fun h => h.is_all_caps)).length).div (Q.ofNat hws.length)
    size_ratio := size.div body_size
    headings := hws }

/-- Model of `improved_composite_score` (lines 546-552). -/
def improved_composite_score (a : SizeAnalysis) : Q :=
  ((a.size_ratio.mul (Q.mk2 6 10)).add
    ((a.bold_ratio.add a.caps_ratio).mul (Q.mk2 3 10))).add
    ((a.avg_score.div (Q.ofNat 10)).mul (Q.mk2 1 10))

/-- Ranked cluster sizes (line 554): by composite score, descending, stable. -/
def sortedSizesOf (body_size : Q) (unnumbered : List HeadingCandidate)
    (unique_sizes : List Q) : List Q :=
  stableSort
    (fun a b =>
      (improved_composite_score (size_analysis_of body_size unnumbered b)).leB
        (improved_composite_score (size_analysis_of body_size unnumbered a)))
    unique_sizes

/-- Model of `level_thresholds` (lines 557-562), in dict insertion order. -/
def level_thresholds : List (Str × Q × Q) :=
  [("H1".data, Q.mk2 16 10, Q.ofNat 10), ("H2".data, Q.mk2 14 10, Q.ofNat 8),
   ("H3".data, Q.mk2 12 10, Q.ofNat 7), ("H4".data, Q.mk2 11 10, Q.ofNat 6)]

/-- The four levels in `H1 → H4` order (line 581). -/
def allLevels : List Str := ["H1".data, "H2".data, "H3".data, "H4".data]

/-- The gated level search (lines 570-577): first unused level whose size-ratio
and average-score gates pass. -/
def findGate (assigned : List Str) (a : SizeAnalysis) : Option Str :=
  (level_thresholds.find?
      (fun t => !(assigned.any (fun l => l == t.1)) && t.2.1.leB a.size_ratio &&
        t.2.2.leB a.avg_score)).map
    (fun t => t.1)

/-- The fallback (lines 579-585): first unused level in `H1 → H4` order. -/
def findFallback (assigned : List Str) : Option Str :=
  allLevels.find? (fun lv => !(assigned.any (fun a2 => a2 == lv)))

/-- Model of `size_level_map[k] = v` with float-valued keys, keeping insertion order. -/
def mapSet (k : Q) (v : Str) : List (Q × Str) → List (Q × Str)
  | [] => [(k, v)]
  | (k2, v2) :: rest => if k2.eqB k then (k2, v) :: rest else (k2, v2) :: mapSet k v rest

/-- Model of `size_level_map[k]`. -/
def lookupQ : List (Q × Str) → Q → Option Str
  | [], _ => none
  | (k2, v) :: rest, k => if k2.eqB k then some v else lookupQ rest k

/-- The level-assignment loop (lines 564-591): walk the ranked sizes, assign a
gated or fallback level, and map every unique size within 1.0 of the current
size to that level. -/
def assignLoop (body_size : Q) (unnumbered : List HeadingCandidate)
    (unique_sizes : List Q) :
    List Q → List Str → List (Q × Str) → List (Q × Str)
  | [], _, m => m
  | size :: rest, assigned, m =>
    match findGate assigned (size_analysis_of body_size unnumbered size) with
    | some l =>
      assignLoop body_size unnumbered unique_sizes rest (l :: assigned)
        ((unique_sizes.filter (fun cs => ((cs.sub size).abs).ltB (Q.ofNat 1))).foldl
          (fun acc cs => mapSet cs l acc) m)
    | none =>
      match findFallback assigned with
      | some l =>
        assignLoop body_size unnumbered unique_sizes rest (l :: assigned)
          ((unique_sizes.filter (fun cs => ((cs.sub size).abs).ltB (Q.ofNat 1))).foldl
            (fun acc cs => mapSet cs l acc) m)
      | none => assignLoop body_size unnumbered unique_sizes rest assigned m

/-- Model of `size_level_map` for a set of unnumbered candidates. -/
def sizeLevelMapOf (body_size : Q) (unnumbered : List HeadingCandidate) : List (Q × Str) :=
  let unique_sizes := uniqueSizesOf unnumbered
  assignLoop body_size unnumbered unique_sizes
    (sortedSizesOf body_size unnumbered unique_sizes) [] []

/-- The per-heading text cleanup (lines 606-614). -/
def clean_candidate_text (t : Str) : Str :=
  stripDotsEnds (removeCtrl (collapseWs (stripTocSuffix (stripStr t))))

/-- The names compared against the cleaned text (line 620). -/
def toc_names : List Str := ["table of contents".data, "contents".data, "index".data]

/-- The final text filter of the unnumbered stream (lines 617-620). -/
def unnumbered_keepB (title : Str) (c : Str) : Bool :=
  !c.isEmpty && 2 < c.length && !(lowerStr c == lowerStr title) &&
    !(toc_names.any (fun t2 => t2 == lowerStr c))

/-- Place one unnumbered candidate (lines 595-626): find the closest mapped
size, require it truthy and within 2.0 (line 603 reads
`if closest_size and abs(closest_size - size_key) < 2.0:` — Python float
truthiness, so a closest key of exactly `0.0` fails the guard and the heading
is dropped), clean the text, apply the text filter. -/
def place_unnumbered (m : List (Q × Str)) (title : Str) (h : HeadingCandidate) :
    Option OutlineEntry :=
  match pickBest (fun x acc => ((x.sub h.size.round2).abs).ltB ((acc.sub h.size.round2).abs))
      (m.map (fun p => p.1)) with
  | none => none
  | some closest =>
    if !(closest.eqB (Q.ofNat 0)) && ((closest.sub h.size.round2).abs).ltB (Q.ofNat 2) then
      match lookupQ m closest with
      | none => none
      | some level =>
        if unnumbered_keepB title (clean_candidate_text h.text) then
          some ⟨level, clean_candidate_text h.text, h.page⟩
        else none
    else none

/-- The unnumbered stream's outline entries (lines 516-626). -/
def unnumbered_entries (body_size : Q) (title : Str)
    (unnumbered : List HeadingCandidate) : List OutlineEntry :=
  match unnumbered with
  | [] => []
  | _ :: _ =>
    (stableSort pageYLe unnumbered).filterMap
      (place_unnumbered (sizeLevelMapOf body_size unnumbered) title)

/-- The final sort key `(page, text)` (line 629); text order is the codepoint
order of Python string comparison. -/
def strLtB : Str → Str → Bool
  | [], [] => false
  | [], _ :: _ => true
  | _ :: _, [] => false
  | a :: as, b :: bs => if a < b then true else if b < a then false else strLtB as bs

def entryKeyLe (a b : OutlineEntry) : Bool :=
  a.page < b.page || (a.page == b.page && (strLtB a.text b.text || a.text == b.text))

/-- The final deduplication by `(lowercased text, page)` keeping the first
occurrence (lines 632-638). -/
def dedup_outline : List OutlineEntry → List (Str × Nat) → List OutlineEntry
  | [], _ => []
  | e :: rest, seen =>
    let key := (lowerStr e.text, e.page)
    if seen.any (fun k => k == key) then dedup_outline rest seen
    else e :: dedup_outline rest (key :: seen)

/-- Model of `_extract_headings` (lines 254-639). -/
def _extract_headings (doc : Doc) (sp : StyleProfile) (title : Str) : List OutlineEntry :=
  if (heading_candidates_of doc sp).isEmpty then []
  else
    dedup_outline
      (stableSort entryKeyLe
        (special_entries (heading_candidates_of doc sp) ++
          numbered_entries (heading_candidates_of doc sp) ++
          unnumbered_entries sp.body_size title (unnumbered_of (heading_candidates_of doc sp))))
      []

/-! ## `extract_document_structure` -/

/-- The output record `{title, outline}`. -/
structure DocResult where
  title : Str
  outline : List OutlineEntry
deriving DecidableEq

/-- The `except` branch of the `try` around title/heading extraction
(lines 656-663): an exception message degrades to the extraction-failure
record. -/
def finish_extraction (res : Except Str (Str × List OutlineEntry)) : DocResult :=
  match res with
  | .error e => ⟨"Error: Failed during content extraction: ".data ++ e, []⟩
  | .ok p => ⟨p.1, p.2⟩

/-- The title/heading extraction step; the embedded pipeline is total, so the
result is always `ok` (Python exceptions are modelled by the `error` case of
`finish_extraction`'s argument). -/
def run_extraction (doc : Doc) (sp : StyleProfile) :
    Except Str (Str × List OutlineEntry) :=
  let title := _extract_title doc sp
  .ok (title, _extract_headings doc sp title)

/-- Model of `extract_document_structure` (lines 641-664), with the close-tracking flag:
the second component records whether `doc.close()` ran before returning
(meaningful only when the document was opened).  The open step and the
extraction step are the two fallible operations, passed as `Except` values.
Exit paths: open failure (line 646, no document acquired); zero pages
(line 649, returns with no `close`); no text content (lines 653-654, closes);
extraction failure and success (lines 656-664, `finally` closes). -/
def extract_document_structure_closes (openRes : Except Str Doc)
    (extraction : Doc → StyleProfile → Except Str (Str × List OutlineEntry)) :
    DocResult × Bool :=
  match openRes with
  | .error e => (⟨"Error: Failed to open or read PDF: ".data ++ e, []⟩, false)
  | .ok doc =>
    if doc.pages.length = 0 then (⟨"Error: Empty or invalid PDF.".data, []⟩, false)
    else
      match _profile_document_styles doc with
      | none => (⟨"Error: PDF contains no text content.".data, []⟩, true)
      | some style_profile => (finish_extraction (extraction doc style_profile), true)

/-- Model of `extract_document_structure` (lines 641-664): the returned record. -/
def extract_document_structure (openRes : Except Str Doc) : DocResult :=
  (extract_document_structure_closes openRes run_extraction).1

/-! ## Concrete documents and candidate lists used as test inputs -/

/-- A document whose first page holds the large bold line `Chapter 1 Intro`
(top of the page) plus a 150-character body-text line, and whose second page
repeats the same large bold chapter line. -/
def docC4 : Doc :=
  { pages :=
      [ { width := Q.ofNat 100, height := Q.ofNat 100
          blocks :=
            [ { x0 := Q.ofNat 10, y0 := Q.ofNat 5, x1 := Q.ofNat 90, y1 := Q.ofNat 12
                lines :=
                  [ { spans := [⟨"Chapter 1 Intro".data, "Helvetica-Bold".data, Q.ofNat 24⟩]
                      x0 := Q.ofNat 10, y0 := Q.ofNat 5, x1 := Q.ofNat 90, y1 := Q.ofNat 12 } ] }
            , { x0 := Q.ofNat 10, y0 := Q.ofNat 60, x1 := Q.ofNat 90, y1 := Q.ofNat 80
                lines :=
                  [ { spans := [⟨List.replicate 150 'a', "Helvetica".data, Q.ofNat 10⟩]
                      x0 := Q.ofNat 10, y0 := Q.ofNat 60, x1 := Q.ofNat 90, y1 := Q.ofNat 70 } ] } ] }
      , { width := Q.ofNat 100, height := Q.ofNat 100
          blocks :=
            [ { x0 := Q.ofNat 10, y0 := Q.ofNat 20, x1 := Q.ofNat 90, y1 := Q.ofNat 25
                lines :=
                  [ { spans := [⟨"Chapter 1 Intro".data, "Helvetica-Bold".data, Q.ofNat 24⟩]
                      x0 := Q.ofNat 10, y0 := Q.ofNat 20, x1 := Q.ofNat 90, y1 := Q.ofNat 25 } ] } ] } ]
    metaTitle := none }

/-- A document with zero pages. -/
def emptyDoc : Doc := ⟨[], none⟩

/-- A one-page document with no spans at all. -/
def noTextDoc : Doc := ⟨[⟨Q.ofNat 100, Q.ofNat 100, []⟩], none⟩

/-- A one-page document whose only heading-styled line sits on page index 0. -/
def docC10 : Doc :=
  { pages :=
      [ { width := Q.ofNat 100, height := Q.ofNat 100
          blocks :=
            [ { x0 := Q.ofNat 10, y0 := Q.ofNat 20, x1 := Q.ofNat 90, y1 := Q.ofNat 25
                lines :=
                  [ { spans := [⟨"Introduction Overview".data, "Helvetica-Bold".data, Q.ofNat 24⟩]
                      x0 := Q.ofNat 10, y0 := Q.ofNat 20, x1 := Q.ofNat 90, y1 := Q.ofNat 25 } ] } ] } ]
    metaTitle := none }

/-- A style profile with body size 10 and heading tiers 24 / 10 / 10. -/
def spBody10 : StyleProfile :=
  { body_size := Q.ofNat 10
    body_font := "Helvetica".data
    font_size_stats := []
    heading_sizes := ⟨Q.ofNat 24, Q.ofNat 10, Q.ofNat 10⟩
    sorted_sizes := [Q.ofNat 24, Q.ofNat 10] }

/-- An unnumbered accepted candidate of a given size and vertical position. -/
def mkCand (t : Str) (sz : Nat) (yy : Nat) : HeadingCandidate :=
  { text := t, size := Q.ofNat sz, font := "F".data, page := 1, y := Q.ofNat yy
    score := 10, is_numbered := false, is_appendix := false, is_chapter := false
    is_sect := false, is_bold := false, is_all_caps := false
    size_ratio := (Q.ofNat sz).div (Q.ofNat 10) }

/-- Five unnumbered candidates in five size clusters (30/27/24/21/18 over a
body size of 10), each cluster more than 2.0 away from the next. -/
def candsC3 : List HeadingCandidate :=
  [mkCand "Aaa One".data 30 1, mkCand "Bbb Two".data 27 2, mkCand "Ccc Three".data 24 3,
   mkCand "Ddd Four".data 21 4, mkCand "Eee Five".data 18 5]

/-- Two unnumbered candidates in two size clusters, used as a witness input. -/
def candsTwo : List HeadingCandidate :=
  [mkCand "Aaa One".data 30 1, mkCand "Bbb Two".data 20 2]

/-- A numbered accepted candidate, not larger than body text, with three words
and a score of 9 (signals as the scanner would derive them). -/
def sigC6 : LineSignals :=
  { word_count := 3, is_bold := false, is_medium := false, size_ratio := Q.ofNat 1
    is_larger := false, is_much_larger := false, is_numbered := true, is_appendix := false
    is_chapter := false, is_sect := false, is_all_caps := false, is_title_case := false
    is_short := true, is_centered := false, is_left_aligned := false
    has_space_before := false, is_top_size := false, is_second_size := false
    is_third_size := false }

/-! ## List lemmas for the sort, the deduplications and the scans -/

theorem mem_insSorted (le : α → α → Bool) (a b : α) (l : List α) :
    b ∈ insSorted le a l ↔ b = a ∨ b ∈ l := by
  induction l with
  | nil => simp [insSorted]
  | cons c cs ih =>
    unfold insSorted
    by_cases h : le a c = true
    · simp [h]
    · simp only [if_neg h, List.mem_cons, ih]
      tauto

theorem mem_stableSort (le : α → α → Bool) (l : List α) (b : α) :
    b ∈ stableSort le l ↔ b ∈ l := by
  induction l with
  | nil => simp [stableSort]
  | cons c cs ih =>
    unfold stableSort
    rw [mem_insSorted, ih, List.mem_cons]

theorem length_insSorted (le : α → α → Bool) (a : α) (l : List α) :
    (insSorted le a l).length = l.length + 1 := by
  induction l with
  | nil => rfl
  | cons c cs ih =>
    unfold insSorted
    by_cases h : le a c = true
    · simp [h]
    · simp [h, ih]

theorem length_stableSort (le : α → α → Bool) (l : List α) :
    (stableSort le l).length = l.length := by
  induction l with
  | nil => rfl
  | cons c cs ih =>
    unfold stableSort
    rw [length_insSorted, ih, List.length_cons]

theorem dedup_outline_key_notin (l : List OutlineEntry) :
    ∀ (seen : List (Str × Nat)) (e : OutlineEntry),
      e ∈ dedup_outline l seen → ¬ ((lowerStr e.text, e.page) ∈ seen) := by
  induction l with
  | nil =>
    intro seen e h
    simp [dedup_outline] at h
  | cons a rest ih =>
    intro seen e h hmem
    unfold dedup_outline at h
    by_cases hc : (seen.any (fun k => k == (lowerStr a.text, a.page))) = true
    · rw [if_pos hc] at h
      exact ih seen e h hmem
    · rw [if_neg hc] at h
      rcases List.mem_cons.mp h with he | he
      · subst he
        exact hc (List.any_eq_true.mpr ⟨_, hmem, beq_self_eq_true _⟩)
      · exact ih _ e he (List.mem_cons_of_mem _ hmem)

theorem dedup_outline_pairwise (l : List OutlineEntry) :
    ∀ seen : List (Str × Nat),
      List.Pairwise (fun a b => ¬ (lowerStr a.text = lowerStr b.text ∧ a.page = b.page))
        (dedup_outline l seen) := by
  induction l with
  | nil => intro seen; simp [dedup_outline]
  | cons a rest ih =>
    intro seen
    unfold dedup_outline
    by_cases hc : (seen.any (fun k => k == (lowerStr a.text, a.page))) = true
    · rw [if_pos hc]; exact ih seen
    · rw [if_neg hc]
      refine List.Pairwise.cons ?_ (ih _)
      intro b hb hab
      apply dedup_outline_key_notin rest _ b hb
      have : (lowerStr b.text, b.page) = (lowerStr a.text, a.page) := by
        rw [hab.1, hab.2]
      rw [this]
      exact List.mem_cons_self _ _

theorem dedup_outline_subset (l : List OutlineEntry) :
    ∀ (seen : List (Str × Nat)) (e : OutlineEntry), e ∈ dedup_outline l seen → e ∈ l := by
  induction l with
  | nil => intro seen e h; simp [dedup_outline] at h
  | cons a rest ih =>
    intro seen e h
    unfold dedup_outline at h
    by_cases hc : (seen.any (fun k => k == (lowerStr a.text, a.page))) = true
    · rw [if_pos hc] at h
      exact List.mem_cons_of_mem _ (ih _ e h)
    · rw [if_neg hc] at h
      rcases List.mem_cons.mp h with he | he
      · exact he ▸ List.mem_cons_self _ _
      · exact List.mem_cons_of_mem _ (ih _ e he)

theorem classify_line_page (body : Q) (hs : HeadingSizes) (page : Page) (n : Nat)
    (prev : Option Block) (block : Block) (line : Line) (c : HeadingCandidate) :
    classify_line body hs page n prev block line = some c → c.page = n := by
  intro h
  unfold classify_line at h
  rcases hsp : line.spans with _ | ⟨span, tl⟩
  · rw [hsp] at h
    exact absurd h (by simp)
  · rw [hsp] at h
    simp only at h
    split at h
    · exact absurd h (by simp)
    · split at h
      · cases h
        rfl
      · exact absurd h (by simp)

theorem scanBlocks_page (body : Q) (hs : HeadingSizes) (page : Page) (n : Nat) :
    ∀ (blocks : List Block) (prev : Option Block) (c : HeadingCandidate),
      c ∈ scanBlocks body hs page n blocks prev → c.page = n := by
  intro blocks
  induction blocks with
  | nil => intro prev c h; simp [scanBlocks] at h
  | cons b rest ih =>
    intro prev c h
    unfold scanBlocks at h
    split at h
    · exact ih prev c h
    · rcases List.mem_append.mp h with h2 | h2
      · rcases List.mem_filterMap.mp h2 with ⟨line, _, hcl⟩
        exact classify_line_page body hs page n prev b line c hcl
      · exact ih (some b) c h2

theorem scanPagesFrom_page_ge (body : Q) (hs : HeadingSizes) :
    ∀ (pages : List Page) (n : Nat) (c : HeadingCandidate),
      c ∈ scanPagesFrom body hs pages n → n ≤ c.page := by
  intro pages
  induction pages with
  | nil => intro n c h; simp [scanPagesFrom] at h
  | cons p rest ih =>
    intro n c h
    unfold scanPagesFrom at h
    rcases List.mem_append.mp h with h2 | h2
    · exact (scanBlocks_page body hs p n p.blocks none c h2).ge
    · exact Nat.le_of_succ_le (ih (n + 1) c h2)

theorem heading_candidates_page_ge (doc : Doc) (sp : StyleProfile) (c : HeadingCandidate) :
    c ∈ heading_candidates_of doc sp → 1 ≤ c.page := by
  intro h
  unfold heading_candidates_of at h
  rcases hp : doc.pages with _ | ⟨p0, rest⟩
  · rw [hp] at h; simp at h
  · rw [hp] at h
    exact scanPagesFrom_page_ge sp.body_size sp.heading_sizes rest 1 c h

theorem special_entries_page (cands : List HeadingCandidate) (e : OutlineEntry) :
    e ∈ special_entries cands → ∃ h ∈ cands, e.page = h.page := by
  intro he
  rcases List.mem_map.mp he with ⟨h, hmem, heq⟩
  refine ⟨h, ?_, by rw [← heq]⟩
  exact (List.mem_filter.mp ((mem_stableSort _ _ h).mp hmem)).1

theorem numbered_entries_page (cands : List HeadingCandidate) (e : OutlineEntry) :
    e ∈ numbered_entries cands → ∃ h ∈ cands, e.page = h.page := by
  intro he
  rcases List.mem_map.mp he with ⟨h, hmem, heq⟩
  refine ⟨h, ?_, by rw [← heq]⟩
  exact (List.mem_filter.mp ((mem_stableSort _ _ h).mp hmem)).1

theorem place_unnumbered_page (m : List (Q × Str)) (title : Str) (h : HeadingCandidate)
    (e : OutlineEntry) : place_unnumbered m title h = some e → e.page = h.page := by
  intro hp
  unfold place_unnumbered at hp
  split at hp
  · exact absurd hp (by simp)
  · split at hp
    · split at hp
      · exact absurd hp (by simp)
      · split at hp
        · cases hp
          rfl
        · exact absurd hp (by simp)
    · exact absurd hp (by simp)

theorem unnumbered_entries_page (body : Q) (title : Str) (uh : List HeadingCandidate)
    (e : OutlineEntry) : e ∈ unnumbered_entries body title uh → ∃ h ∈ uh, e.page = h.page := by
  intro he
  unfold unnumbered_entries at he
  rcases huh : uh with _ | ⟨c0, rest⟩
  · rw [huh] at he; simp at he
  · rw [huh] at he
    simp only at he
    rcases List.mem_filterMap.mp he with ⟨h, hmem, hpl⟩
    refine ⟨h, ?_, place_unnumbered_page _ _ _ _ hpl⟩
    rw [← huh] at hmem ⊢
    exact (mem_stableSort _ _ h).mp hmem

/-- Every entry of `_extract_headings` carries the page of one of the accepted
candidates. -/
theorem extract_headings_entry_page (doc : Doc) (sp : StyleProfile) (title : Str)
    (e : OutlineEntry) :
    e ∈ _extract_headings doc sp title →
      ∃ h ∈ heading_candidates_of doc sp, e.page = h.page := by
  intro he
  unfold _extract_headings at he
  split at he
  · simp at he
  · have hmem : e ∈ special_entries (heading_candidates_of doc sp) ++
        numbered_entries (heading_candidates_of doc sp) ++
        unnumbered_entries sp.body_size title (unnumbered_of (heading_candidates_of doc sp)) := by
      have := dedup_outline_subset _ _ _ he
      exact (mem_stableSort _ _ e).mp this
    rcases List.mem_append.mp hmem with h2 | h2
    · rcases List.mem_append.mp h2 with h3 | h3
      · exact special_entries_page _ e h3
      · exact numbered_entries_page _ e h3
    · rcases unnumbered_entries_page _ _ _ e h2 with ⟨h, hmem2, hpage⟩
      exact ⟨h, (List.mem_filter.mp hmem2).1, hpage⟩

/-! ## Claims C9, C8, C10 -/

/-- C9: the engine is deterministic — the embedded pipeline is a pure function
of the opened document and its spans, so running
`extract_document_structure` twice on the same input yields the identical
record. -/
theorem C9_deterministic (openRes : Except Str Doc) :
    extract_document_structure openRes = extract_document_structure openRes := rfl

/-- C8: in every final outline no two entries share the same
`(lowercased text, page)` pair — the final deduplication keeps the first
occurrence of each key. -/
theorem C8_no_duplicate_keys (doc : Doc) (sp : StyleProfile) (title : Str) :
    List.Pairwise (fun a b => ¬ (lowerStr a.text = lowerStr b.text ∧ a.page = b.page))
      (_extract_headings doc sp title) := by
  unfold _extract_headings
  split
  · simp
  · exact dedup_outline_pairwise _ _

/-- C10: every outline entry has page index at least 1 (heading extraction
iterates over pages from index 1 only), and a document whose only
heading-styled line sits on page 0 yields an empty outline. -/
theorem C10_outline_pages_ge_one :
    (∀ (doc : Doc) (sp : StyleProfile) (title : Str) (e : OutlineEntry),
        e ∈ _extract_headings doc sp title → 1 ≤ e.page) ∧
      _extract_headings docC10 spBody10 "Untitled".data = [] := by
  constructor
  · intro doc sp title e he
    rcases extract_headings_entry_page doc sp title e he with ⟨h, hmem, hpage⟩
    rw [hpage]
    exact heading_candidates_page_ge doc sp h hmem
  · decide

/-- Witness for C10 at a concrete input: `docC4` produces an outline entry,
and the theorem applies to it. -/
theorem C10_outline_pages_witness :
    1 ≤ (⟨"H1".data, "Chapter 1 Intro".data, 1⟩ : OutlineEntry).page :=
  C10_outline_pages_ge_one.1 docC4 spBody10 "x".data _ (by decide)

/-! ## Claim C7 -/

/-- C7 counterexample: the line `SUMMARY` — a single short all-caps token
containing the structural keyword `summary` — does NOT survive the
non-heading filters (the claim asserts it survives). -/
theorem C7_counterexample : line_passes_filters "SUMMARY".data = false := by decide

/-- C7 amended: every line of fewer than two words is discarded by the
word-count filter, so the structural-keyword exemption for single all-caps
tokens is unreachable: no single-token line ever survives. -/
theorem C7_single_token_always_discarded :
    ∀ t : Str, (splitWords t).length < 2 → line_passes_filters t = false := by
  intro t h
  simp only [line_passes_filters]
  split_ifs <;> rfl

/-- Witness for C7 amended at the concrete input `SUMMARY`. -/
theorem C7_single_token_witness :
    (splitWords "SUMMARY".data).length < 2 ∧ line_passes_filters "SUMMARY".data = false :=
  ⟨by decide, C7_single_token_always_discarded "SUMMARY".data (by decide)⟩

/-! ## Claim C6 -/

/-- C6 counterexample: a numbered candidate that is not larger than body text
has threshold 10, not 6 — the raise-to-10 rule (line 430) overrides the
numbered lowering (line 422). -/
theorem C6_counterexample :
    sigC6.is_numbered = true ∧ min_threshold sigC6 = 10 ∧ ¬ min_threshold sigC6 = 6 := by
  decide

/-- C6 amended: the acceptance threshold with its real precedence — 10
whenever the word count exceeds 10 or the line is not larger than body,
overriding every lowering; otherwise 6 for numbered/chapter/appendix, 7 for
(much-larger and bold) or (at most five words), else 8; and a surviving line
is accepted iff its score reaches the threshold. -/
theorem C6_threshold_rules :
    (∀ s : LineSignals, 10 < s.word_count ∨ s.is_larger = false → min_threshold s = 10) ∧
    (∀ s : LineSignals, s.word_count ≤ 10 → s.is_larger = true →
      ((s.is_numbered || s.is_chapter || s.is_appendix) = true → min_threshold s = 6) ∧
      ((s.is_numbered || s.is_chapter || s.is_appendix) = false →
        (s.is_much_larger && s.is_bold) = true → min_threshold s = 7) ∧
      ((s.is_numbered || s.is_chapter || s.is_appendix) = false →
        (s.is_much_larger && s.is_bold) = false → s.word_count ≤ 5 → min_threshold s = 7) ∧
      ((s.is_numbered || s.is_chapter || s.is_appendix) = false →
        (s.is_much_larger && s.is_bold) = false → ¬ s.word_count ≤ 5 →
          min_threshold s = 8)) ∧
    (∀ (body : Q) (hs : HeadingSizes) (page : Page) (pn : Nat) (prev : Option Block)
        (block : Block) (line : Line) (span : Span) (tl : List Span),
        line.spans = span :: tl →
        line_passes_filters (lineText line) = true →
        ((classify_line body hs page pn prev block line).isSome ↔
          min_threshold (signals_of body hs page prev block line span (lineText line)) ≤
            line_score (signals_of body hs page prev block line span (lineText line))
              (signals_of body hs page prev block line span (lineText line)).size_ratio)) := by
  refine ⟨?_, ?_, ?_⟩
  · intro s h
    have hc : (decide (10 < s.word_count) || !s.is_larger) = true := by
      rcases h with h | h
      · simp [h]
      · simp [h]
    unfold min_threshold
    rw [if_pos hc]
  · intro s h1 h2
    have hc : (decide (10 < s.word_count) || !s.is_larger) = false := by
      simp [h2, Nat.not_lt.mpr h1]
    refine ⟨?_, ?_, ?_, ?_⟩
    · intro hn
      unfold min_threshold
      rw [if_neg (by simp [hc]), if_pos hn]
    · intro hn hm
      unfold min_threshold
      rw [if_neg (by simp [hc]), if_neg (by simp [hn]), if_pos hm]
    · intro hn hm h5
      unfold min_threshold
      rw [if_neg (by simp [hc]), if_neg (by simp [hn]), if_neg (by simp [hm]),
        if_pos (by simp [h5, h2])]
    · intro hn hm h5
      unfold min_threshold
      rw [if_neg (by simp [hc]), if_neg (by simp [hn]), if_neg (by simp [hm]),
        if_neg (by simp [h5])]
  · intro body hs page pn prev block line span tl hsp hf
    unfold classify_line
    rw [hsp]
    simp only [hf, Bool.not_true, Bool.false_eq_true, if_false]
    split
    · rename_i hle
      simp [hle]
    · rename_i hle
      simp [hle]

def spanC6 : Span := ⟨"Chapter 1 Intro".data, "Helvetica-Bold".data, Q.ofNat 24⟩

def lineC6 : Line :=
  { spans := [spanC6]
    x0 := Q.ofNat 10, y0 := Q.ofNat 20, x1 := Q.ofNat 90, y1 := Q.ofNat 25 }

def blockC6 : Block := ⟨Q.ofNat 10, Q.ofNat 20, Q.ofNat 90, Q.ofNat 25, [lineC6]⟩

def pageC6 : Page := ⟨Q.ofNat 100, Q.ofNat 100, [blockC6]⟩

/-- A copy of `sigC6` that is larger than body text. -/
def sigC6L : LineSignals :=
  { word_count := 3, is_bold := false, is_medium := false, size_ratio := Q.mk2 12 10
    is_larger := true, is_much_larger := false, is_numbered := true, is_appendix := false
    is_chapter := false, is_sect := false, is_all_caps := false, is_title_case := false
    is_short := true, is_centered := false, is_left_aligned := false
    has_space_before := false, is_top_size := false, is_second_size := false
    is_third_size := false }

/-- Witness for C6 amended at concrete inputs: the override gives 10 for a
non-larger numbered line, a larger numbered line keeps 6, and a concrete
surviving line is accepted as score and threshold dictate. -/
theorem C6_threshold_witness :
    min_threshold sigC6 = 10 ∧ min_threshold sigC6L = 6 ∧
      (classify_line (Q.ofNat 10) ⟨Q.ofNat 24, Q.ofNat 10, Q.ofNat 10⟩ pageC6 1 none blockC6
          lineC6).isSome = true :=
  ⟨C6_threshold_rules.1 sigC6 (Or.inr rfl),
   (C6_threshold_rules.2.1 sigC6L (by decide) rfl).1 rfl,
   (C6_threshold_rules.2.2 (Q.ofNat 10) ⟨Q.ofNat 24, Q.ofNat 10, Q.ofNat 10⟩ pageC6 1 none
       blockC6 lineC6 spanC6 [] rfl (by decide)).mpr (by decide)⟩

/-! ## Claim C5 -/

/-- C5: close tracking per exit path of a successfully opened document — the
zero-pages error path returns WITHOUT closing the document handle (the code
returns at line 649 before any `doc.close()`), while the no-text-content
path, the success path and the extraction-failure path all close. -/
theorem C5_close_tracking :
    (extract_document_structure_closes (.ok emptyDoc) run_extraction).2 = false ∧
      (extract_document_structure_closes (.ok noTextDoc) run_extraction).2 = true ∧
      (extract_document_structure_closes (.ok docC4) run_extraction).2 = true ∧
      (extract_document_structure_closes (.ok docC4)
          (fun _ _ => .error "boom".data)).2 = true := by
  refine ⟨by decide, by decide, by decide, by decide⟩

/-! ## Claim C2 -/

/-- C2 counterexample: a zero-page document has zero text spans, yet its
result is the empty-or-invalid-PDF error, not the no-text-content error the
claim promises for every zero-span document. -/
theorem C2_counterexample :
    allSpans emptyDoc = [] ∧
      (extract_document_structure (.ok emptyDoc)).title ≠
        "Error: PDF contains no text content.".data := by
  exact ⟨rfl, by decide⟩

/-- C2 amended: every failing input — open failure, zero pages, at least one
page but zero spans, and an internal extraction failure — produces a normal
record whose title starts with `Error:` and whose outline is empty; a
zero-span document yields the no-text-content error provided it has at least
one page (a zero-page document yields the empty-or-invalid-PDF error
instead). -/
theorem C2_error_paths :
    (∀ e : Str, strStarts (extract_document_structure (.error e)).title "Error:".data = true ∧
        (extract_document_structure (.error e)).outline = []) ∧
      (∀ doc : Doc, doc.pages = [] →
        extract_document_structure (.ok doc) = ⟨"Error: Empty or invalid PDF.".data, []⟩) ∧
      (∀ doc : Doc, doc.pages ≠ [] → allSpans doc = [] →
        extract_document_structure (.ok doc) =
          ⟨"Error: PDF contains no text content.".data, []⟩) ∧
      (∀ e : Str, strStarts (finish_extraction (.error e)).title "Error:".data = true ∧
        (finish_extraction (.error e)).outline = []) := by
  refine ⟨?_, ?_, ?_, ?_⟩
  · intro e
    exact ⟨rfl, rfl⟩
  · intro doc h
    simp [extract_document_structure, extract_document_structure_closes, h]
  · intro doc h1 h2
    have hlen : ¬ doc.pages.length = 0 := by
      simpa [List.length_eq_zero] using h1
    simp [extract_document_structure, extract_document_structure_closes, hlen,
      _profile_document_styles, h2]
  · intro e
    exact ⟨rfl, rfl⟩

/-- Witness for C2 amended at concrete inputs. -/
theorem C2_error_paths_witness :
    extract_document_structure (.ok emptyDoc) =
        ⟨"Error: Empty or invalid PDF.".data, []⟩ ∧
      extract_document_structure (.ok noTextDoc) =
        ⟨"Error: PDF contains no text content.".data, []⟩ ∧
      strStarts (extract_document_structure (.error "no file".data)).title "Error:".data =
        true :=
  ⟨C2_error_paths.2.1 emptyDoc rfl,
   C2_error_paths.2.2.1 noTextDoc (by simp [noTextDoc]) rfl,
   (C2_error_paths.1 "no file".data).1⟩

/-! ## Claim C4 -/

theorem place_unnumbered_keep (m : List (Q × Str)) (title : Str) (h : HeadingCandidate)
    (e : OutlineEntry) :
    place_unnumbered m title h = some e → unnumbered_keepB title e.text = true := by
  intro hp
  unfold place_unnumbered at hp
  split at hp
  · exact absurd hp (by simp)
  · split at hp
    · split at hp
      · exact absurd hp (by simp)
      · split at hp
        · rename_i hkeep
          cases hp
          exact hkeep
        · exact absurd hp (by simp)
    · exact absurd hp (by simp)

/-- C4 counterexample: on `docC4` the extracted title is `Chapter 1 Intro`
and the final outline contains an entry with exactly that text — the
title-equality exclusion does not apply to chapter/appendix (or numbered)
entries, only to unnumbered ones. -/
theorem C4_counterexample :
    ∃ e ∈ (extract_document_structure (.ok docC4)).outline,
      lowerStr e.text = lowerStr (extract_document_structure (.ok docC4)).title :=
  ⟨⟨"H1".data, "Chapter 1 Intro".data, 1⟩, by decide, by decide⟩

/-- C4 amended: the exclusion of entries equal to the title (case-insensitive)
or matching `table of contents` / `contents` / `index` holds for every entry
of the UNNUMBERED stream; special (chapter/appendix) and numbered entries are
not subject to this filter. -/
theorem C4_title_filter_unnumbered_only
    (body : Q) (title : Str) (uh : List HeadingCandidate) (e : OutlineEntry)
    (he : e ∈ unnumbered_entries body title uh) :
    lowerStr e.text ≠ lowerStr title ∧ ¬ lowerStr e.text ∈ toc_names := by
  have hkeep : unnumbered_keepB title e.text = true := by
    unfold unnumbered_entries at he
    rcases huh : uh with _ | ⟨c0, rest⟩
    · rw [huh] at he
      simp at he
    · rw [huh] at he
      simp only at he
      rcases List.mem_filterMap.mp he with ⟨h, _, hpl⟩
      rw [← huh] at hpl
      exact place_unnumbered_keep _ _ _ _ hpl
  simp only [unnumbered_keepB, Bool.and_eq_true, Bool.not_eq_true',
    beq_eq_false_iff_ne, List.any_eq_false] at hkeep
  obtain ⟨⟨⟨h1, h2⟩, h3⟩, h4⟩ := hkeep
  refine ⟨h3, fun hmem => ?_⟩
  exact (h4 _ hmem) (beq_self_eq_true _)

/-- Witness for C4 amended at a concrete input: an entry produced by the
unnumbered stream of `candsTwo` is not title-equal and not a TOC name. -/
theorem C4_title_filter_witness :
    lowerStr (⟨"H1".data, "Aaa One".data, 1⟩ : OutlineEntry).text ≠ lowerStr "T".data ∧
      ¬ lowerStr (⟨"H1".data, "Aaa One".data, 1⟩ : OutlineEntry).text ∈ toc_names :=
  C4_title_filter_unnumbered_only (Q.ofNat 10) "T".data candsTwo _ (by decide)

/-! ## Claim C1: pattern lemmas and the level mapping -/

theorem matchDigitsDot_digits (s r : Str) (h : matchDigitsDot s = some r) :
    (matchDigits s).isSome = true := by
  unfold matchDigitsDot at h
  unfold matchDigits
  split at h
  · exact absurd h (by simp)
  · rename_i hne
    simp [hne]

theorem re_seg4_imp_seg3 (t : Str) (h : re_seg4 t = true) : re_seg3 t = true := by
  unfold re_seg4 at h
  rcases Option.isSome_iff_exists.mp h with ⟨r, hr⟩
  unfold matchAlt4 at hr
  rcases Option.bind_eq_some.mp hr with ⟨c, hc, hdig⟩
  rcases Option.bind_eq_some.mp hc with ⟨b, hb, hbc⟩
  rcases Option.bind_eq_some.mp hb with ⟨a, ha, hab⟩
  unfold re_seg3 matchAlt3
  rw [ha, Option.some_bind, hab, Option.some_bind]
  exact matchDigitsDot_digits b c hbc

theorem re_seg3_imp_seg2 (t : Str) (h : re_seg3 t = true) : re_seg2 t = true := by
  unfold re_seg3 at h
  rcases Option.isSome_iff_exists.mp h with ⟨r, hr⟩
  unfold matchAlt3 at hr
  rcases Option.bind_eq_some.mp hr with ⟨b, hb, hdig⟩
  rcases Option.bind_eq_some.mp hb with ⟨a, ha, hab⟩
  unfold re_seg2 matchAlt2
  rw [ha, Option.some_bind]
  exact matchDigitsDot_digits a b hab

theorem re_seg2_imp_seg1 (t : Str) (h : re_seg2 t = true) : re_seg1 t = true := by
  unfold re_seg2 at h
  rcases Option.isSome_iff_exists.mp h with ⟨r, hr⟩
  unfold matchAlt2 at hr
  rcases Option.bind_eq_some.mp hr with ⟨a, ha, hdig⟩
  unfold re_seg1 matchAlt1
  rw [ha]
  rfl

theorem romanChar_not_digit (c : Char) (h : isRomanChar c = true) : c.isDigit = false := by
  simp only [isRomanChar, Bool.or_eq_true, decide_eq_true_eq] at h
  rcases h with ((((((h | h) | h) | h) | h) | h) | h) <;> subst h <;> decide

theorem alphaChar_not_digit (c : Char) : c.isAlpha = true → c.isDigit = false := by
  intro h
  simp only [Char.isAlpha, Char.isUpper, Char.isLower, Char.isDigit, Bool.or_eq_true,
    Bool.and_eq_true, decide_eq_true_eq] at h ⊢
  rcases h with ⟨h1, h2⟩ | ⟨h1, h2⟩ <;>
    · have h1n : 65 ≤ c.val.toNat ∨ 97 ≤ c.val.toNat := by
        first
          | exact Or.inl h1
          | exact Or.inr h1
      have hds : decide (c.val ≤ 57) = false := by
        rw [decide_eq_false_iff_not]
        intro hc
        have hcn : c.val.toNat ≤ 57 := hc
        omega
      simp [hds]

theorem seg1_false_of_head (c : Char) (cs : Str) (hd : c.isDigit = false) :
    re_seg1 (c :: cs) = false := by
  unfold re_seg1 matchAlt1 matchDigitsDot
  rw [show takeDigits (c :: cs) = (0, c :: cs) from by unfold takeDigits; simp [hd]]
  simp

theorem re_roman_imp_not_seg1 (t : Str) (h : re_roman_dot t = true) : re_seg1 t = false := by
  unfold re_roman_dot at h
  rcases Option.isSome_iff_exists.mp h with ⟨r, hr⟩
  rcases ht : t with _ | ⟨c, cs⟩
  · rw [ht] at hr
    simp [matchRomanDot, takeRoman] at hr
  · rw [ht] at hr
    by_cases hc : isRomanChar c = true
    · exact seg1_false_of_head c cs (romanChar_not_digit c hc)
    · unfold matchRomanDot at hr
      rw [show takeRoman (c :: cs) = (0, c :: cs) from by
        unfold takeRoman
        simp [hc]] at hr
      simp at hr

theorem re_letter_imp_not_seg1 (t : Str) (h : re_letter_dot t = true) : re_seg1 t = false := by
  unfold re_letter_dot at h
  rcases Option.isSome_iff_exists.mp h with ⟨r, hr⟩
  rcases ht : t with _ | ⟨c, cs⟩
  · rw [ht] at hr
    simp [matchLetterDot] at hr
  · rcases hcs : cs with _ | ⟨c2, cs2⟩
    · rw [ht, hcs] at hr
      simp [matchLetterDot] at hr
    · rw [ht, hcs] at hr
      unfold matchLetterDot at hr
      dsimp only at hr
      by_cases hcond : (c.isAlpha && decide (c2 = '.')) = true
      · cases hca : c.isAlpha
        · rw [hca] at hcond
          simp at hcond
        · exact seg1_false_of_head c (c2 :: cs2) (alphaChar_not_digit c hca)
      · rw [if_neg hcond] at hr
        exact absurd hr (by simp)

/-- Negate a deeper-segment match from a shallower one. -/
theorem re_seg3_false_of_seg2 (t : Str) (h : re_seg2 t = false) : re_seg3 t = false := by
  cases hh : re_seg3 t
  · rfl
  · exact absurd (re_seg3_imp_seg2 t hh) (by simp [h])

theorem re_seg4_false_of_seg3 (t : Str) (h : re_seg3 t = false) : re_seg4 t = false := by
  cases hh : re_seg4 t
  · rfl
  · exact absurd (re_seg4_imp_seg3 t hh) (by simp [h])

theorem re_seg2_false_of_seg1 (t : Str) (h : re_seg1 t = false) : re_seg2 t = false := by
  cases hh : re_seg2 t
  · rfl
  · exact absurd (re_seg2_imp_seg1 t hh) (by simp [h])

/-- C1: in the numbered stream the level is a pure function of the text — the
numbering shape — and the mapping is: four dotted segments → `H4`, three →
`H3`, two → `H2`, one → `H1`, roman-numeral-dot → `H1`, single-letter-dot
(when not a roman match, which is checked first) → `H2`; font size plays no
role. -/
theorem C1_numbered_level_mapping :
    (∀ (cands : List HeadingCandidate) (e : OutlineEntry),
        e ∈ numbered_entries cands → e.level = numbered_level e.text) ∧
      (∀ t : Str, re_seg4 t = true → numbered_level t = "H4".data) ∧
      (∀ t : Str, re_seg3 t = true → re_seg4 t = false → numbered_level t = "H3".data) ∧
      (∀ t : Str, re_seg2 t = true → re_seg3 t = false → numbered_level t = "H2".data) ∧
      (∀ t : Str, re_seg1 t = true → re_seg2 t = false → numbered_level t = "H1".data) ∧
      (∀ t : Str, re_roman_dot t = true → numbered_level t = "H1".data) ∧
      (∀ t : Str, re_letter_dot t = true → re_roman_dot t = false →
        numbered_level t = "H2".data) := by
  refine ⟨?_, ?_, ?_, ?_, ?_, ?_, ?_⟩
  · intro cands e he
    rcases List.mem_map.mp he with ⟨h, _, heq⟩
    rw [← heq]
  · intro t h4
    simp [numbered_level, h4]
  · intro t h3 h4
    simp [numbered_level, h3, h4]
  · intro t h2 h3
    have h4 := re_seg4_false_of_seg3 t h3
    simp [numbered_level, h2, h3, h4]
  · intro t h1 h2
    have h3 := re_seg3_false_of_seg2 t h2
    have h4 := re_seg4_false_of_seg3 t h3
    simp [numbered_level, h1, h2, h3, h4]
  · intro t hro
    have h1 := re_roman_imp_not_seg1 t hro
    have h2 := re_seg2_false_of_seg1 t h1
    have h3 := re_seg3_false_of_seg2 t h2
    have h4 := re_seg4_false_of_seg3 t h3
    simp [numbered_level, h1, h2, h3, h4, hro]
  · intro t hle hro
    have h1 := re_letter_imp_not_seg1 t hle
    have h2 := re_seg2_false_of_seg1 t h1
    have h3 := re_seg3_false_of_seg2 t h2
    have h4 := re_seg4_false_of_seg3 t h3
    simp [numbered_level, h1, h2, h3, h4, hro, hle]

/-- A concrete numbered candidate list used by the C1 witness. -/
def candC1 : List HeadingCandidate :=
  [{ text := "2.3 Overview".data, size := Q.ofNat 12, font := "F".data, page := 2
     y := Q.ofNat 30, score := 12, is_numbered := true, is_appendix := false
     is_chapter := false, is_sect := false, is_bold := false, is_all_caps := false
     size_ratio := Q.mk2 12 10 }]

/-- Witness for C1 at concrete inputs: each numbering shape mapped at an
explicit text, and the level of a concrete numbered entry. -/
theorem C1_numbered_level_witness :
    numbered_level "2.3.1.4 Scope".data = "H4".data ∧
      numbered_level "2.3.1 Scope".data = "H3".data ∧
      numbered_level "2.3 Scope".data = "H2".data ∧
      numbered_level "2. Scope".data = "H1".data ∧
      numbered_level "IV. Romans".data = "H1".data ∧
      numbered_level "b. letter".data = "H2".data ∧
      (⟨"H2".data, "2.3 Overview".data, 2⟩ : OutlineEntry).level =
        numbered_level (⟨"H2".data, "2.3 Overview".data, 2⟩ : OutlineEntry).text :=
  ⟨C1_numbered_level_mapping.2.1 _ (by decide),
   C1_numbered_level_mapping.2.2.1 _ (by decide) (by decide),
   C1_numbered_level_mapping.2.2.2.1 _ (by decide) (by decide),
   C1_numbered_level_mapping.2.2.2.2.1 _ (by decide) (by decide),
   C1_numbered_level_mapping.2.2.2.2.2.1 _ (by decide),
   C1_numbered_level_mapping.2.2.2.2.2.2 _ (by decide) (by decide),
   C1_numbered_level_mapping.1 candC1 _ (by decide)⟩

/-! ## Claim C3: support lemmas -/

/-- Key membership (up to float equality) in a size-level map. -/
def hasKeyB (m : List (Q × Str)) (q : Q) : Bool := m.any (fun p => p.1.eqB q)

theorem lookupQ_some_of_hasKey (m : List (Q × Str)) (q : Q) (h : hasKeyB m q = true) :
    ∃ l, lookupQ m q = some l := by
  induction m with
  | nil => simp [hasKeyB] at h
  | cons p rest ih =>
    rcases p with ⟨k2, v⟩
    unfold lookupQ
    by_cases hk : k2.eqB q = true
    · exact ⟨v, by rw [if_pos hk]⟩
    · rw [if_neg hk]
      apply ih
      simpa [hasKeyB, hk] using h

theorem hasKeyB_trans (m : List (Q × Str)) (a b : Q) (hab : a.eqB b = true)
    (h : hasKeyB m a = true) : hasKeyB m b = true := by
  rcases List.any_eq_true.mp h with ⟨p, hp, hpa⟩
  refine List.any_eq_true.mpr ⟨p, hp, ?_⟩
  rw [Q.eqB_iff] at hpa hab ⊢
  rw [hpa, hab]

theorem mapSet_hasKey_self (k : Q) (v : Str) (m : List (Q × Str)) :
    hasKeyB (mapSet k v m) k = true := by
  induction m with
  | nil => simp [mapSet, hasKeyB, Q.eqB_refl]
  | cons p rest ih =>
    rcases p with ⟨k2, v2⟩
    unfold mapSet
    by_cases hk : k2.eqB k = true
    · simp [hasKeyB, hk]
    · rw [if_neg hk]
      simpa [hasKeyB, hk] using ih

theorem mapSet_hasKey_mono (k : Q) (v : Str) (m : List (Q × Str)) (q : Q)
    (h : hasKeyB m q = true) : hasKeyB (mapSet k v m) q = true := by
  induction m with
  | nil => simp [hasKeyB] at h
  | cons p rest ih =>
    rcases p with ⟨k2, v2⟩
    simp only [hasKeyB, List.any_cons, Bool.or_eq_true] at h
    unfold mapSet
    by_cases hk : k2.eqB k = true
    · rw [if_pos hk]
      simp only [hasKeyB, List.any_cons, Bool.or_eq_true]
      exact h
    · rw [if_neg hk]
      simp only [hasKeyB, List.any_cons, Bool.or_eq_true]
      rcases h with h1 | h1
      · exact Or.inl h1
      · exact Or.inr (ih h1)

theorem foldl_mapSet_hasKey_mono (lvl : Str) (l : List Q) :
    ∀ (m : List (Q × Str)) (q : Q), hasKeyB m q = true →
      hasKeyB (l.foldl (fun acc cs => mapSet cs lvl acc) m) q = true := by
  induction l with
  | nil => intro m q h; exact h
  | cons c rest ih =>
    intro m q h
    exact ih _ q (mapSet_hasKey_mono c lvl m q h)

theorem foldl_mapSet_hasKey_mem (lvl : Str) (l : List Q) :
    ∀ (m : List (Q × Str)) (q : Q), q ∈ l →
      hasKeyB (l.foldl (fun acc cs => mapSet cs lvl acc) m) q = true := by
  induction l with
  | nil => intro m q h; cases h
  | cons c rest ih =>
    intro m q h
    rcases List.mem_cons.mp h with h2 | h2
    · subst h2
      exact foldl_mapSet_hasKey_mono lvl rest _ q (mapSet_hasKey_self q lvl m)
    · exact ih _ q h2

/-- The levels of `allLevels` not yet assigned. -/
def unusedLevels (assigned : List Str) : List Str :=
  allLevels.filter (fun lv => !(assigned.any (fun a2 => a2 == lv)))

theorem findFallback_none_iff (assigned : List Str) :
    findFallback assigned = none ↔ unusedLevels assigned = [] := by
  unfold findFallback unusedLevels
  rw [List.find?_eq_none, List.filter_eq_nil_iff]

theorem findFallback_mem_unused (assigned : List Str) (l : Str)
    (h : findFallback assigned = some l) : l ∈ unusedLevels assigned := by
  unfold findFallback at h
  unfold unusedLevels
  rw [List.mem_filter]
  have hp := @List.find?_some Str (fun lv => !(assigned.any (fun a2 => a2 == lv))) l allLevels h
  exact ⟨List.mem_of_find?_eq_some h, hp⟩

theorem findGate_mem_unused (assigned : List Str) (a : SizeAnalysis) (l : Str)
    (h : findGate assigned a = some l) : l ∈ unusedLevels assigned := by
  unfold findGate at h
  rcases Option.map_eq_some'.mp h with ⟨t, ht, hl⟩
  have hmem : t ∈ level_thresholds := List.mem_of_find?_eq_some ht
  have hpred := List.find?_some ht
  simp only [Bool.and_eq_true] at hpred
  unfold unusedLevels
  rw [List.mem_filter]
  constructor
  · have h2 : t.1 ∈ level_thresholds.map (fun t2 => t2.1) := List.mem_map_of_mem _ hmem
    rw [show level_thresholds.map (fun t2 => t2.1) = allLevels from rfl] at h2
    rw [← hl]
    exact h2
  · rw [← hl]
    exact hpred.1.1

theorem unusedLevels_cons (lnew : Str) (assigned : List Str) :
    unusedLevels (lnew :: assigned) =
      (unusedLevels assigned).filter (fun x => !(lnew == x)) := by
  unfold unusedLevels
  rw [List.filter_filter]
  apply List.filter_congr
  intro x _
  simp [List.any_cons, Bool.not_or, Bool.and_comm]

theorem length_filter_ne_of_nodup (L : List Str) (l : Str) (hn : L.Nodup) (hm : l ∈ L) :
    (L.filter (fun x => !(l == x))).length + 1 = L.length := by
  induction L with
  | nil => cases hm
  | cons hd rest ih =>
    rcases List.nodup_cons.mp hn with ⟨hna, hnr⟩
    rcases List.mem_cons.mp hm with h | h
    · subst h
      have hfr : rest.filter (fun x => !(l == x)) = rest := by
        apply List.filter_eq_self.mpr
        intro b hb
        have hne : ¬ l = b := by
          intro he
          rw [he] at hna
          exact hna hb
        simp [hne]
      simp [List.filter_cons, hfr]
    · have hbf : (l == hd) = false := by
        apply beq_eq_false_iff_ne.mpr
        intro he
        rw [← he] at hna
        exact hna h
      simp only [List.filter_cons, hbf, Bool.not_false, if_pos trivial, List.length_cons]
      rw [← ih hnr h]

theorem allLevels_nodup : allLevels.Nodup := by decide

theorem unusedLevels_nodup (assigned : List Str) : (unusedLevels assigned).Nodup :=
  List.Nodup.filter _ allLevels_nodup

theorem unusedLevels_cons_length (lnew : Str) (assigned : List Str)
    (h : lnew ∈ unusedLevels assigned) :
    (unusedLevels (lnew :: assigned)).length + 1 = (unusedLevels assigned).length := by
  rw [unusedLevels_cons]
  exact length_filter_ne_of_nodup _ _ (unusedLevels_nodup assigned) h

theorem foldl_pick_spec {α : Type} (key : α → Q) (l : List α) :
    ∀ acc : α,
      ((l.foldl (fun acc2 x => if (key x).ltB (key acc2) then x else acc2) acc) = acc ∨
        (l.foldl (fun acc2 x => if (key x).ltB (key acc2) then x else acc2) acc) ∈ l) ∧
      (key (l.foldl (fun acc2 x => if (key x).ltB (key acc2) then x else acc2) acc)).toRat ≤
        (key acc).toRat ∧
      ∀ x ∈ l,
        (key (l.foldl (fun acc2 x => if (key x).ltB (key acc2) then x else acc2) acc)).toRat ≤
          (key x).toRat := by
  induction l with
  | nil =>
    intro acc
    exact ⟨Or.inl rfl, le_refl _, by intro x hx; cases hx⟩
  | cons c rest ih =>
    intro acc
    simp only [List.foldl_cons]
    rcases ih (if (key c).ltB (key acc) then c else acc) with ⟨hmem, hle, hall⟩
    have hacc : (key (if (key c).ltB (key acc) then c else acc)).toRat ≤ (key acc).toRat := by
      by_cases hc : (key c).ltB (key acc) = true
      · rw [if_pos hc]
        exact le_of_lt ((Q.ltB_iff _ _).mp hc)
      · rw [if_neg hc]
    have hc2 : (key (if (key c).ltB (key acc) then c else acc)).toRat ≤ (key c).toRat := by
      by_cases hc : (key c).ltB (key acc) = true
      · rw [if_pos hc]
      · rw [if_neg hc]
        exact le_of_not_lt (fun hlt => hc ((Q.ltB_iff _ _).mpr hlt))
    refine ⟨?_, le_trans hle hacc, ?_⟩
    · rcases hmem with hm | hm
      · rw [hm]
        by_cases hc : (key c).ltB (key acc) = true
        · rw [if_pos hc]
          exact Or.inr (List.mem_cons_self _ _)
        · rw [if_neg hc]
          exact Or.inl rfl
      · exact Or.inr (List.mem_cons_of_mem _ hm)
    · intro x hx
      rcases List.mem_cons.mp hx with h2 | h2
      · subst h2
        exact le_trans hle hc2
      · exact hall x h2

theorem pickBest_spec {α : Type} (key : α → Q) (l : List α) (r : α)
    (hr : pickBest (fun x acc => (key x).ltB (key acc)) l = some r) :
    r ∈ l ∧ ∀ x ∈ l, (key r).toRat ≤ (key x).toRat := by
  rcases l with _ | ⟨a, as⟩
  · simp [pickBest] at hr
  · unfold pickBest at hr
    injection hr with hr
    rcases foldl_pick_spec key as a with ⟨hmem, hle, hall⟩
    constructor
    · rw [← hr]
      rcases hmem with hm | hm
      · rw [hm]
        exact List.mem_cons_self _ _
      · exact List.mem_cons_of_mem _ hm
    · intro x hx
      rw [← hr]
      rcases List.mem_cons.mp hx with h2 | h2
      · subst h2
        exact hle
      · exact hall x h2

theorem assignLoop_hasKey_mono (body : Q) (un : List HeadingCandidate) (uniq : List Q) :
    ∀ (sizes : List Q) (assigned : List Str) (m : List (Q × Str)) (q : Q),
      hasKeyB m q = true →
      hasKeyB (assignLoop body un uniq sizes assigned m) q = true := by
  intro sizes
  induction sizes with
  | nil => intro assigned m q h; exact h
  | cons s rest ih =>
    intro assigned m q h
    unfold assignLoop
    rcases hg : findGate assigned (size_analysis_of body un s) with _ | l
    · rcases hfb : findFallback assigned with _ | l
      · exact ih assigned m q h
      · exact ih _ _ q (foldl_mapSet_hasKey_mono l _ m q h)
    · exact ih _ _ q (foldl_mapSet_hasKey_mono l _ m q h)

theorem assignLoop_hasKey_of_mem (body : Q) (un : List HeadingCandidate) (uniq : List Q) :
    ∀ (sizes : List Q) (assigned : List Str) (m : List (Q × Str)) (q : Q),
      sizes.length ≤ (unusedLevels assigned).length →
      q ∈ sizes → q ∈ uniq →
      hasKeyB (assignLoop body un uniq sizes assigned m) q = true := by
  intro sizes
  induction sizes with
  | nil =>
    intro assigned m q _ hq _
    cases hq
  | cons s rest ih =>
    intro assigned m q hlen hq huq
    have hne : unusedLevels assigned ≠ [] := by
      intro h0
      rw [h0] at hlen
      simp at hlen
    unfold assignLoop
    rcases hg : findGate assigned (size_analysis_of body un s) with _ | l
    · rcases hfb : findFallback assigned with _ | l
      · exact absurd ((findFallback_none_iff assigned).mp hfb) hne
      · have hlmem := findFallback_mem_unused assigned l hfb
        have hlen2 : rest.length ≤ (unusedLevels (l :: assigned)).length := by
          have hstep := unusedLevels_cons_length l assigned hlmem
          simp only [List.length_cons] at hlen
          omega
        rcases List.mem_cons.mp hq with h2 | h2
        · subst h2
          apply assignLoop_hasKey_mono
          apply foldl_mapSet_hasKey_mem
          rw [List.mem_filter]
          exact ⟨huq, Q.abs_sub_self_ltB q 1 (by omega)⟩
        · exact ih (l :: assigned) _ q hlen2 h2 huq
    · have hlmem := findGate_mem_unused assigned _ l hg
      have hlen2 : rest.length ≤ (unusedLevels (l :: assigned)).length := by
        have hstep := unusedLevels_cons_length l assigned hlmem
        simp only [List.length_cons] at hlen
        omega
      rcases List.mem_cons.mp hq with h2 | h2
      · subst h2
        apply assignLoop_hasKey_mono
        apply foldl_mapSet_hasKey_mem
        rw [List.mem_filter]
        exact ⟨huq, Q.abs_sub_self_ltB q 1 (by omega)⟩
      · exact ih (l :: assigned) _ q hlen2 h2 huq

theorem dedupQAux_rep (l : List Q) :
    ∀ (seen : List Q) (a : Q), a ∈ l →
      (∃ b ∈ dedupQAux l seen, b.eqB a = true) ∨ (∃ b ∈ seen, b.eqB a = true) := by
  induction l with
  | nil =>
    intro seen a ha
    cases ha
  | cons q rest ih =>
    intro seen a ha
    unfold dedupQAux
    by_cases hs : (seen.any (fun s2 => s2.eqB q)) = true
    · rw [if_pos hs]
      rcases List.mem_cons.mp ha with h2 | h2
      · subst h2
        rcases List.any_eq_true.mp hs with ⟨b, hb, hbq⟩
        exact Or.inr ⟨b, hb, hbq⟩
      · exact ih seen a h2
    · rw [if_neg hs]
      rcases List.mem_cons.mp ha with h2 | h2
      · subst h2
        exact Or.inl ⟨a, List.mem_cons_self _ _, Q.eqB_refl a⟩
      · rcases ih (q :: seen) a h2 with h3 | h3
        · rcases h3 with ⟨b, hb, hba⟩
          exact Or.inl ⟨b, List.mem_cons_of_mem _ hb, hba⟩
        · rcases h3 with ⟨b, hb, hba⟩
          rcases List.mem_cons.mp hb with h4 | h4
          · subst h4
            exact Or.inl ⟨b, List.mem_cons_self _ _, hba⟩
          · exact Or.inr ⟨b, h4, hba⟩

theorem dedupQ_rep (l : List Q) (a : Q) (ha : a ∈ l) :
    ∃ b ∈ dedupQ l, b.eqB a = true := by
  rcases dedupQAux_rep l [] a ha with h | h
  · exact h
  · rcases h with ⟨b, hb, _⟩
    cases hb

theorem place_unnumbered_some (m : List (Q × Str)) (title : Str) (h : HeadingCandidate)
    (hkey : hasKeyB m (h.size.round2) = true)
    (hnz : (h.size.round2).eqB (Q.ofNat 0) = false)
    (hkeep : unnumbered_keepB title (clean_candidate_text h.text) = true) :
    ∃ lvl : Str, place_unnumbered m title h =
      some ⟨lvl, clean_candidate_text h.text, h.page⟩ := by
  rcases List.any_eq_true.mp hkey with ⟨p0, hp0, hp0q⟩
  have hkeys : p0.1 ∈ m.map (fun p => p.1) := List.mem_map_of_mem _ hp0
  rcases hpk : pickBest
      (fun x acc => ((x.sub h.size.round2).abs).ltB ((acc.sub h.size.round2).abs))
      (m.map (fun p => p.1)) with _ | closest
  · rcases hm : m.map (fun p => p.1) with _ | ⟨k0, ks⟩
    · rw [hm] at hkeys
      cases hkeys
    · rw [hm] at hpk
      simp [pickBest] at hpk
  · have hspec := pickBest_spec (fun z => (z.sub h.size.round2).abs) (m.map (fun p => p.1))
      closest hpk
    have hzero : ((p0.1.sub h.size.round2).abs).toRat = 0 := by
      rw [Q.toRat_abs, Q.toRat_sub, (Q.eqB_iff _ _).mp hp0q]
      simp
    have h1 := hspec.2 p0.1 hkeys
    rw [hzero] at h1
    have h0 : (0:ℚ) ≤ ((closest.sub h.size.round2).abs).toRat := by
      rw [Q.toRat_abs]
      exact abs_nonneg _
    have habs : ((closest.sub h.size.round2).abs).toRat = 0 := le_antisymm h1 h0
    have hlt : ((closest.sub h.size.round2).abs).ltB (Q.ofNat 2) = true := by
      rw [Q.ltB_iff, Q.toRat_ofNat, habs]
      norm_num
    have hceq : closest.toRat = (h.size.round2).toRat := by
      have h2 := habs
      rw [Q.toRat_abs, Q.toRat_sub] at h2
      have h3 := abs_eq_zero.mp h2
      linarith
    have hcnz : (!(closest.eqB (Q.ofNat 0))) = true := by
      cases hc : closest.eqB (Q.ofNat 0)
      · rfl
      · exfalso
        rw [Q.eqB_iff, Q.toRat_ofNat] at hc
        have h4 : (h.size.round2).eqB (Q.ofNat 0) = true := by
          rw [Q.eqB_iff, Q.toRat_ofNat, ← hceq]
          exact hc
        rw [h4] at hnz
        exact absurd hnz (by simp)
    have hcond : (!(closest.eqB (Q.ofNat 0)) &&
        ((closest.sub h.size.round2).abs).ltB (Q.ofNat 2)) = true := by
      rw [hcnz, hlt]
      rfl
    have hck : hasKeyB m closest = true := by
      rcases List.mem_map.mp hspec.1 with ⟨pc, hpc, hpc1⟩
      exact List.any_eq_true.mpr ⟨pc, hpc, by rw [hpc1]; exact Q.eqB_refl _⟩
    rcases lookupQ_some_of_hasKey m closest hck with ⟨lvl, hlk⟩
    refine ⟨lvl, ?_⟩
    unfold place_unnumbered
    rw [hpk]
    dsimp only
    rw [if_pos hcond, hlk]
    dsimp only
    rw [if_pos hkeep]

/-- C3 counterexample: five size clusters (30/27/24/21/18) over body size 10 —
the four largest receive H1–H4 and the fifth cluster's heading `Eee Five` is
dropped from the outline (its size is more than 2.0 from every mapped size),
refuting "no cluster's headings are dropped ... even when there are more than
four clusters". -/
theorem C3_counterexample :
    (uniqueSizesOf candsC3).length = 5 ∧
      mkCand "Eee Five".data 18 5 ∈ candsC3 ∧
      unnumbered_entries (Q.ofNat 10) [] candsC3 =
        [⟨"H1".data, "Aaa One".data, 1⟩, ⟨"H2".data, "Bbb Two".data, 1⟩,
         ⟨"H3".data, "Ccc Three".data, 1⟩, ⟨"H4".data, "Ddd Four".data, 1⟩] ∧
      ∀ e ∈ unnumbered_entries (Q.ofNat 10) [] candsC3, ¬ e.text = "Eee Five".data := by
  refine ⟨by decide, ?_, by decide, by decide⟩
  unfold candsC3
  exact List.mem_cons_of_mem _ (List.mem_cons_of_mem _ (List.mem_cons_of_mem _
    (List.mem_cons_of_mem _ (List.mem_cons_self _ _))))

/-- C3 amended: with at most four size clusters every cluster receives a level
(gated or fallback) and no heading is dropped for lack of a level — every
candidate whose rounded size is nonzero (line 603's Python truthiness guard
drops a `0.0`-size cluster) and whose cleaned text passes the final text
filter contributes an outline entry.  (With more than four clusters,
later-ranked clusters receive no level and their headings are dropped unless
within 2.0 of a mapped size, as the counterexample shows.) -/
theorem C3_fallback_at_most_four (body : Q) (title : Str) (hs : List HeadingCandidate)
    (hlen : (uniqueSizesOf hs).length ≤ 4) (h : HeadingCandidate) (hmem : h ∈ hs)
    (hnz : (h.size.round2).eqB (Q.ofNat 0) = false)
    (hkeep : unnumbered_keepB title (clean_candidate_text h.text) = true) :
    ∃ lvl : Str,
      (⟨lvl, clean_candidate_text h.text, h.page⟩ : OutlineEntry) ∈
        unnumbered_entries body title hs := by
  have hmm : h.size.round2 ∈ hs.map (fun h2 => h2.size.round2) := List.mem_map_of_mem _ hmem
  rcases dedupQ_rep _ _ hmm with ⟨u, hu, hueq⟩
  have huu : u ∈ uniqueSizesOf hs := (mem_stableSort _ _ u).mpr hu
  have hus : u ∈ sortedSizesOf body hs (uniqueSizesOf hs) := (mem_stableSort _ _ u).mpr huu
  have hkeyu : hasKeyB (sizeLevelMapOf body hs) u = true := by
    unfold sizeLevelMapOf
    apply assignLoop_hasKey_of_mem
    · rw [show (unusedLevels []).length = 4 from by decide]
      unfold sortedSizesOf
      rw [length_stableSort]
      exact hlen
    · exact hus
    · exact huu
  have hkey : hasKeyB (sizeLevelMapOf body hs) (h.size.round2) = true :=
    hasKeyB_trans _ _ _ hueq hkeyu
  rcases place_unnumbered_some (sizeLevelMapOf body hs) title h hkey hnz hkeep with ⟨lvl, hpl⟩
  refine ⟨lvl, ?_⟩
  rcases hhs : hs with _ | ⟨c0, rest⟩
  · rw [hhs] at hmem
    cases hmem
  · subst hhs
    exact List.mem_filterMap.mpr ⟨h, (mem_stableSort _ _ h).mpr hmem, hpl⟩

/-- Witness for C3 amended at a concrete input: `candsTwo` has two clusters,
and its first candidate contributes an entry. -/
theorem C3_fallback_witness :
    ∃ lvl : Str,
      (⟨lvl, clean_candidate_text "Aaa One".data, 1⟩ : OutlineEntry) ∈
        unnumbered_entries (Q.ofNat 10) "T".data candsTwo :=
  C3_fallback_at_most_four (Q.ofNat 10) "T".data candsTwo (by decide)
    (mkCand "Aaa One".data 30 1)
    (by unfold candsTwo; exact List.mem_cons_self _ _)
    (by decide)
    (by decide)
